import Mathlib

/-!
# nct7802 SMBus utility: detection and register decoding

A shallow embedding of `src/main.c`: the register tables, the two byte-transaction helpers,
`nct7802_detect`, `show_temp`, `show_voltage` and the cycle `main` runs for one bus, followed by
theorems about them.

Conventions of the embedding

* The C globals (`cmd`) and the side effects (bus transactions, printed readings) are threaded
  explicitly through a state `Sys`.
* `devctl` (the QNX SMBus driver call) is external to the repository: the state carries the
  outcome of a byte read of every register of every slave (`some data` when the call returns `EOK`,
  `none` otherwise).
* `uint16_t` / `unsigned int` values are `Nat` with explicit `% 2^16` / `% 2^32`; `int` is `Int`.
* `float` values are exact rationals (`ℚ`): rounding is not modelled.
* Table indexing returns `Option`; an access outside a table makes the decoder return `none`.
-/

namespace Nct7802

/-! ## Register addresses (the `#define`s of the source) -/

def REG_BANK : Nat := 0x00
def REG_TEMP_LSB : Nat := 0x05
def REG_TEMP_PECI_LSB : Nat := 0x08
def REG_VOLTAGE_LOW : Nat := 0x0f
def REG_FANCOUNT_LOW : Nat := 0x13
def REG_START : Nat := 0x21
def REG_MODE : Nat := 0x22
def REG_PECI_ENABLE : Nat := 0x23
def REG_FAN_ENABLE : Nat := 0x24
def REG_VMON_ENABLE : Nat := 0x25
def REG_VENDOR_ID : Nat := 0xfd
def REG_CHIP_ID : Nat := 0xfe
def REG_VERSION_ID : Nat := 0xff

/-! ## Tables -/

def REG_TEMP : List Nat := [0x01, 0x02, 0x03, 0x04, 0x06, 0x07]

def NameRegTemp : List String :=
  ["Remote Diode 1 PCH",
   "Remote Diode 2",
   "Remote Diode 3",
   "Local Diode SYS",
   "PECI 0 CPU\t",
   "PECI 1",
   "PECI 2"]

def NameRegVolt : List String :=
  ["VCore 3V3",
   "VCC  VBAT",
   "VSEN1",
   "VSEN2",
   "VSEN3 12V"]

def REG_VOLTAGE : List Nat := [0x09, 0x0a, 0x0c, 0x0d, 0x0e]

def VOLTAGE_MULT : List ℚ := [1, 1.698947368, 0, 0, 7.17]

/-! ## Constants of the system headers -/

/-- The value of `EOK` (`<errno.h>`). -/
def EOK : Int := 0

/-- The value of `ENODEV` (`<errno.h>`). -/
def ENODEV : Int := 19

/-- Stands for `SMBUS_CMD_BYTE_DATA` (`<dcmd_smbus.h>`); the program only stores it, so its
numeric value plays no role. -/
def SMBUS_CMD_BYTE_DATA : Nat := 2

/-! ## State -/

/-- The transaction record `smbus_cmd_data_t` (the global `cmd`). Its declaration is in
`<dcmd_smbus.h>`; the fields hold the values stored into them. -/
structure SmbusCmd where
  cmd_type : Nat
  slv_addr : Nat
  smbus_cmd : Nat
  length : Nat
  data : Nat

/-- One bus transaction. -/
inductive Txn where
  | read (slv_addr reg : Nat)
  | write (slv_addr reg data : Nat)
  deriving DecidableEq, Repr

/-- One printed measurement line: the label, the integer the value is computed from and the
printed value. -/
structure Reading where
  label : String
  raw : Nat
  scaled : ℚ
  deriving DecidableEq, Repr

/-- The state the program runs in.

* `regs slv reg`: the outcome of a byte read of register `reg` of slave `slv`
  (`some data` when `devctl` returns `EOK`, `none` when it fails);
* `wr_ok slv reg data`: whether a byte write succeeds;
* `cmd`: the global transaction record;
* `log`: the transactions issued so far, oldest first;
* `out`: the measurement lines printed so far, oldest first. -/
structure Sys where
  regs : Nat → Nat → Option Nat
  wr_ok : Nat → Nat → Nat → Bool
  cmd : SmbusCmd
  log : List Txn
  out : List Reading

/-- `devctl(fd, DCMD_SMBUS_READ, &cmd, sizeof(cmd), NULL)`: one read transaction for the register
named in `cmd`; on success the data is stored in `cmd.data`. The result is `true` for `EOK`. -/
def devctl_read (s : Sys) : Bool × Sys :=
  let s1 := { s with log := s.log ++ [Txn.read s.cmd.slv_addr s.cmd.smbus_cmd] }
  match s.regs s.cmd.slv_addr s.cmd.smbus_cmd with
  | some d => (true, { s1 with cmd := { s1.cmd with data := d } })
  | none => (false, s1)

/-- `devctl(fd, DCMD_SMBUS_WRITE, &cmd, sizeof(cmd), NULL)`: one write transaction. The write is
logged; the read outcomes `regs` are left as they are, what a write does to the chip being outside
the repository. -/
def devctl_write (s : Sys) : Bool × Sys :=
  let s1 := { s with log := s.log ++ [Txn.write s.cmd.slv_addr s.cmd.smbus_cmd s.cmd.data] }
  (s.wr_ok s.cmd.slv_addr s.cmd.smbus_cmd s.cmd.data, s1)

/-! ## Byte transactions -/

/-- `uint16_t i2c_smbus_read_byte_data(int device, uint8_t addr)`. -/
def i2c_smbus_read_byte_data (device addr : Nat) (s : Sys) : Nat × Sys :=
  let s1 := { s with cmd := { s.cmd with
    cmd_type := SMBUS_CMD_BYTE_DATA, slv_addr := device, smbus_cmd := addr % 256,
    length := 0x00 } }
  let (res, s2) := devctl_read s1
  if res then (s2.cmd.data % 65536, s2) else (0, s2)

/-- `uint16_t i2c_smbus_write_byte_data(int device, uint8_t addr, uint16_t data)`. -/
def i2c_smbus_write_byte_data (device addr data : Nat) (s : Sys) : Nat × Sys :=
  let s1 := { s with cmd := { s.cmd with
    data := data % 65536,
    cmd_type := SMBUS_CMD_BYTE_DATA, slv_addr := device, smbus_cmd := addr % 256,
    length := 0x00 } }
  let (res, s2) := devctl_write s1
  if res then (s2.cmd.data % 65536, s2) else (0, s2)

/-! ## Detection -/

/-- `int nct7802_detect(int device)`. The result is the value returned and the state after the
reads. `reg` is an `int` holding the `uint16_t` the read returns. The `printf` before
`return EOK` prints no measurement and is left out. -/
def nct7802_detect (device : Nat) (s : Sys) : Int × Sys :=
  let (r, s) := i2c_smbus_read_byte_data device REG_BANK s
  let reg : Int := r
  if reg ≠ 0x00 then (-ENODEV, s) else
  let (r, s) := i2c_smbus_read_byte_data device REG_VENDOR_ID s
  let reg : Int := r
  if reg ≠ 0x50 then (-ENODEV, s) else
  let (r, s) := i2c_smbus_read_byte_data device REG_CHIP_ID s
  let reg : Int := r
  if reg ≠ 0xc3 then (-ENODEV, s) else
  let (r, s) := i2c_smbus_read_byte_data device REG_VERSION_ID s
  let reg : Int := r
  if reg < 0 ∨ Int.land reg 0xf0 ≠ 0x20 then (-ENODEV, s) else
  let (r, s) := i2c_smbus_read_byte_data device REG_TEMP_LSB s
  let reg : Int := r
  if reg < 0 ∨ Int.land reg 0x1f ≠ 0 then (-ENODEV, s) else
  let (r, s) := i2c_smbus_read_byte_data device REG_TEMP_PECI_LSB s
  let reg : Int := r
  if reg < 0 ∨ Int.land reg 0x3f ≠ 0 then (-ENODEV, s) else
  let (r, s) := i2c_smbus_read_byte_data device REG_VOLTAGE_LOW s
  let reg : Int := r
  if reg < 0 ∨ Int.land reg 0x3f ≠ 0 then (-ENODEV, s) else
  (EOK, s)

/-! ## Temperature decoding -/

/-- The expression `((t2 & 0xe0) >> 5) * 125` of `show_temp` (`unsigned int`). -/
def temp_frac (t2 : Nat) : Nat :=
  ((t2 &&& 0xe0) >>> 5) * 125 % 2 ^ 32

/-- The expression `(t1 << 8) / 32 * 125 + t2` of `show_temp` (`unsigned int`). -/
def temp_raw (t1 t2 : Nat) : Nat :=
  (((t1 <<< 8) % 2 ^ 32) / 32 * 125 % 2 ^ 32 + t2) % 2 ^ 32

/-- The tail of the loop body of `show_temp`: `res = ...; printf(..., NameRegTemp[i], res / 1000)`.
The line records the `unsigned int` value assigned to `res` and that value divided by 1000. The
result carries the value of `t2` on to the next iteration. -/
def show_temp_print (i t1 t2 : Nat) (s : Sys) : Option (Nat × Sys) :=
  let res := temp_raw t1 t2
  match NameRegTemp[i]? with
  | none => none
  | some name => some (t2, { s with out := s.out ++ [⟨name, res, (res : ℚ) / 1000⟩] })

/-- The body of the `for` loop of `show_temp` at index `i`. `t2` is the value the variable has
when the iteration starts (`t1` is assigned before it is used in every iteration). A `continue`
ends the iteration with the current `t2`. -/
def show_temp_body (device : Nat) (reg_temp_low : Int) (i t2 : Nat) (s : Sys) :
    Option (Nat × Sys) :=
  match REG_TEMP[i]? with
  | none => none
  | some a =>
    let (t1, s) := i2c_smbus_read_byte_data device a s
    if t1 ≤ 0 then some (t2, s) else
    if reg_temp_low ≠ 0 then
      let (t2, s) := i2c_smbus_read_byte_data device REG_TEMP_LSB s
      if t2 ≤ 0 then some (t2, s) else
      let t2 := temp_frac t2
      show_temp_print i t1 t2 s
    else
      show_temp_print i t1 t2 s

/-- The `for` loop of `show_temp` over the indices still to visit. -/
def show_temp_loop (device : Nat) (reg_temp_low : Int) : List Nat → Nat → Sys → Option (Nat × Sys)
  | [], t2, s => some (t2, s)
  | i :: rest, t2, s =>
    match show_temp_body device reg_temp_low i t2 s with
    | none => none
    | some (t2, s) => show_temp_loop device reg_temp_low rest t2 s

/-- `void show_temp(int device)`: `for (i = 0; i < sizeof(REG_TEMP); i++)` with one-byte table
entries, so `sizeof(REG_TEMP)` is the number of entries. The banner lines and `delay(100)` are
left out. The result is `none` when a table is indexed outside its bounds. -/
def show_temp (device : Nat) (s : Sys) : Option Sys :=
  let t2 : Nat := 0
  let reg_temp_low : Int := 0
  (show_temp_loop device reg_temp_low (List.range REG_TEMP.length) t2 s).map Prod.snd

/-- The `for` loop of `show_temp` with its counter made explicit: starting with the counter at `i`,
while `i < sizeof(REG_TEMP)` run the body and increment `i`. The result carries the value of the
counter when the loop exits. -/
def show_temp_for (device : Nat) (reg_temp_low : Int) (i t2 : Nat) (s : Sys) :
    Option (Nat × Nat × Sys) :=
  if i < REG_TEMP.length then
    match show_temp_body device reg_temp_low i t2 s with
    | none => none
    | some (t2, s) => show_temp_for device reg_temp_low (i + 1) t2 s
  else some (i, t2, s)
termination_by REG_TEMP.length - i

/-! ## Voltage decoding -/

/-- The value of `voltage` after lines 131-139 of the source, from the index and the two values
read (`hi` from `REG_VOLTAGE[index]`, `lo` from `REG_VOLTAGE_LOW`), in `uint16_t` arithmetic. -/
def voltage_acc (index hi lo : Nat) : Nat :=
  let voltage := (hi <<< 2) % 65536
  let voltage := (voltage ||| (lo >>> 6)) % 65536
  if index = 0 then voltage * 4 % 65536 else voltage * 2 % 65536

/-- The expression `((float) voltage) / 1000 * VOLTAGE_MULT[index]`, over the rationals. The test
`compute_val == 0` has the same outcome over `float`: a non-zero `voltage` is at least 1 and the
non-zero factors are at least 1, so no product underflows to 0. -/
def voltage_compute (voltage : Nat) (mult : ℚ) : ℚ :=
  (voltage : ℚ) / 1000 * mult

/-- The body of the `for` loop of `show_voltage` at `index`. -/
def show_voltage_body (device index : Nat) (s : Sys) : Option Sys :=
  match REG_VOLTAGE[index]? with
  | none => none
  | some a =>
    let (hi, s) := i2c_smbus_read_byte_data device a s
    let (lo, s) := i2c_smbus_read_byte_data device REG_VOLTAGE_LOW s
    let voltage := voltage_acc index hi lo
    match VOLTAGE_MULT[index]? with
    | none => none
    | some mult =>
      let compute_val := voltage_compute voltage mult
      if compute_val = 0 then some s else
      match NameRegVolt[index]? with
      | none => none
      | some name => some { s with out := s.out ++ [⟨name, voltage, compute_val⟩] }

/-- The `for` loop of `show_voltage` over the indices still to visit. -/
def show_voltage_loop (device : Nat) : List Nat → Sys → Option Sys
  | [], s => some s
  | index :: rest, s =>
    match show_voltage_body device index s with
    | none => none
    | some s => show_voltage_loop device rest s

/-- `void show_voltage(int device)`: `for (index = 0; index < sizeof(REG_VOLTAGE); index++)` with
one-byte table entries, so `sizeof(REG_VOLTAGE)` is the number of entries. The banner lines and
`delay(100)` are left out. The result is `none` when a table is indexed outside its bounds. -/
def show_voltage (device : Nat) (s : Sys) : Option Sys :=
  show_voltage_loop device (List.range REG_VOLTAGE.length) s

/-- The `for` loop of `show_voltage` with its counter made explicit. -/
def show_voltage_for (device : Nat) (index : Nat) (s : Sys) : Option (Nat × Sys) :=
  if index < REG_VOLTAGE.length then
    match show_voltage_body device index s with
    | none => none
    | some s => show_voltage_for device (index + 1) s
  else some (index, s)
termination_by REG_VOLTAGE.length - index

/-! ## The cycle of `main` for one bus -/

/-- The body of the `for` loop of `main` for a bus whose device node opened (lines 219-249 of the
source): the presence probe, the two reads printed as `REG_CHIP_ID` and `Version`,
`nct7802_detect` (its result is not used), the configuration writes and the two decoders. The
`fprintf` calls print no measurement and are left out. -/
def main_cycle (s : Sys) : Option Sys :=
  let device_id : Nat := 0x2C
  let s := { s with cmd := { s.cmd with
    cmd_type := SMBUS_CMD_BYTE_DATA, slv_addr := device_id, smbus_cmd := 0x00, length := 0x00 } }
  let (_, s) := devctl_read s
  let (_, s) := i2c_smbus_read_byte_data device_id REG_CHIP_ID s
  let (_, s) := i2c_smbus_read_byte_data device_id REG_VERSION_ID s
  let (_, s) := nct7802_detect device_id s
  let (_, s) := i2c_smbus_write_byte_data device_id REG_BANK 0 s
  let (_, s) := i2c_smbus_write_byte_data device_id REG_START 0x01 s
  let (_, s) := i2c_smbus_write_byte_data device_id REG_MODE 0x3F s
  let (_, s) := i2c_smbus_write_byte_data device_id REG_VMON_ENABLE 0x3 s
  match show_voltage device_id s with
  | none => none
  | some s =>
    let (_, s) := i2c_smbus_write_byte_data device_id REG_MODE 0x40 s
    show_temp device_id s

/-! ## Auxiliary definitions for the statements -/

/-- A state with the given register outcomes, every write succeeding, and nothing logged or printed
yet. -/
def sys_of (regs : Nat → Nat → Option Nat) : Sys :=
  { regs := regs, wr_ok := fun _ _ _ => true, cmd := ⟨0, 0, 0, 0, 0⟩, log := [], out := [] }

/-- The value a read returns for the outcome `o` of the transaction. -/
def rdval (o : Option Nat) : Nat :=
  match o with
  | some d => d % 65536
  | none => 0

/-- The state after one read. -/
def after_read (device addr : Nat) (s : Sys) : Sys :=
  (i2c_smbus_read_byte_data device addr s).2

/-- The state after one write. -/
def after_write (device addr data : Nat) (s : Sys) : Sys :=
  (i2c_smbus_write_byte_data device addr data s).2

/-- The state after `nct7802_detect`. -/
def after_detect (device : Nat) (s : Sys) : Sys :=
  (nct7802_detect device s).2

/-- Whether a transaction is a write. -/
def is_write : Txn → Bool
  | Txn.write _ _ _ => true
  | Txn.read _ _ => false

/-- The line iteration `i` of `show_temp` prints when `reg_temp_low` is `0` and the iteration
starts with `t2`, if it prints one. -/
def temp_line (regs : Nat → Nat → Option Nat) (device t2 i : Nat) : Option Reading :=
  if rdval (regs device (REG_TEMP.getD i 0)) = 0 then none
  else some ⟨NameRegTemp.getD i "", temp_raw (rdval (regs device (REG_TEMP.getD i 0))) t2,
    (temp_raw (rdval (regs device (REG_TEMP.getD i 0))) t2 : ℚ) / 1000⟩

/-- The line iteration `index` of `show_voltage` prints, if it prints one. -/
def volt_line (regs : Nat → Nat → Option Nat) (device index : Nat) : Option Reading :=
  if voltage_compute
      (voltage_acc index (rdval (regs device (REG_VOLTAGE.getD index 0)))
        (rdval (regs device 0x0f)))
      (VOLTAGE_MULT.getD index 0) = 0 then none
  else some ⟨NameRegVolt.getD index "",
    voltage_acc index (rdval (regs device (REG_VOLTAGE.getD index 0))) (rdval (regs device 0x0f)),
    voltage_compute
      (voltage_acc index (rdval (regs device (REG_VOLTAGE.getD index 0)))
        (rdval (regs device 0x0f)))
      (VOLTAGE_MULT.getD index 0)⟩

/-! ## Concrete register contents -/

/-- The register content of the confirmed scenario: bank 0, vendor 0x50, chip 0xc3, version 0x21,
every other register 0. -/
def regs_confirmed : Nat → Nat :=
  fun a => if a = 0xfd then 0x50 else if a = 0xfe then 0xc3 else if a = 0xff then 0x21 else 0

/-- The register content of the low-bits scenario: every read fails except that of the shared
voltage-low-byte register 0x0f, which returns 0xff. -/
def regs_volt_low_bits : Nat → Nat → Option Nat :=
  fun _ a => if a = 0x0f then some 0xff else none

/-- The register content of the PECI scenario: high byte 0x64 in register 0x06 (PECI 0), 0x20 in
both low-byte registers 0x05 and 0x08, every other read failing. -/
def regs_peci_fraction : Nat → Nat → Option Nat :=
  fun _ a => if a = 0x06 then some 0x64 else if a = 0x05 ∨ a = 0x08 then some 0x20 else none

/-- The register content of the failed-read scenario: the confirmed content, except that the read
of the temperature-low-byte register 0x05 fails. -/
def regs_temp_lsb_fails : Nat → Nat → Option Nat :=
  fun _ a => if a = 0x05 then none else some (regs_confirmed a)

/-! # Theorems -/

/-! ## The effect of one read -/

theorem read_eq (device addr : Nat) (s : Sys) :
    i2c_smbus_read_byte_data device addr s
      = (rdval (s.regs device (addr % 256)), after_read device addr s) := by
  unfold after_read i2c_smbus_read_byte_data devctl_read rdval
  cases h : s.regs device (addr % 256) <;> simp [h]

theorem read_fst (device addr : Nat) (s : Sys) :
    (i2c_smbus_read_byte_data device addr s).1 = rdval (s.regs device (addr % 256)) := by
  rw [read_eq]

@[simp] theorem after_read_regs (device addr : Nat) (s : Sys) :
    (after_read device addr s).regs = s.regs := by
  unfold after_read i2c_smbus_read_byte_data devctl_read
  cases h : s.regs device (addr % 256) <;> simp [h]

@[simp] theorem after_read_wr_ok (device addr : Nat) (s : Sys) :
    (after_read device addr s).wr_ok = s.wr_ok := by
  unfold after_read i2c_smbus_read_byte_data devctl_read
  cases h : s.regs device (addr % 256) <;> simp [h]

@[simp] theorem after_read_out (device addr : Nat) (s : Sys) :
    (after_read device addr s).out = s.out := by
  unfold after_read i2c_smbus_read_byte_data devctl_read
  cases h : s.regs device (addr % 256) <;> simp [h]

@[simp] theorem after_read_log (device addr : Nat) (s : Sys) :
    (after_read device addr s).log = s.log ++ [Txn.read device (addr % 256)] := by
  unfold after_read i2c_smbus_read_byte_data devctl_read
  cases h : s.regs device (addr % 256) <;> simp [h]

theorem rdval_byte (v : Nat) (h : v < 256) : rdval (some v) = v := by
  simp only [rdval]; omega

theorem rdval_lt (o : Option Nat) : rdval o < 65536 := by
  unfold rdval
  cases o with
  | none => decide
  | some d => exact Nat.mod_lt _ (by decide)

/-! ## The effect of one write -/

theorem write_snd (device addr data : Nat) (s : Sys) :
    (i2c_smbus_write_byte_data device addr data s).2 = after_write device addr data s := rfl

@[simp] theorem after_write_regs (device addr data : Nat) (s : Sys) :
    (after_write device addr data s).regs = s.regs := by
  unfold after_write i2c_smbus_write_byte_data devctl_write
  simp only []
  split_ifs <;> rfl

@[simp] theorem after_write_wr_ok (device addr data : Nat) (s : Sys) :
    (after_write device addr data s).wr_ok = s.wr_ok := by
  unfold after_write i2c_smbus_write_byte_data devctl_write
  simp only []
  split_ifs <;> rfl

@[simp] theorem after_write_out (device addr data : Nat) (s : Sys) :
    (after_write device addr data s).out = s.out := by
  unfold after_write i2c_smbus_write_byte_data devctl_write
  simp only []
  split_ifs <;> rfl

@[simp] theorem after_write_log (device addr data : Nat) (s : Sys) :
    (after_write device addr data s).log =
      s.log ++ [Txn.write device (addr % 256) (data % 65536)] := by
  unfold after_write i2c_smbus_write_byte_data devctl_write
  simp only []
  split_ifs <;> rfl

/-! ## Detection: verdict and reads as functions of the values read -/

theorem land_natCast (n m : Nat) : Int.land (n : Int) (m : Int) = ((n &&& m : Nat) : Int) := rfl

theorem land_f0 (n : Nat) : Int.land (n : Int) 0xf0 = ((n &&& 0xf0 : Nat) : Int) := rfl

theorem land_1f (n : Nat) : Int.land (n : Int) 0x1f = ((n &&& 0x1f : Nat) : Int) := rfl

theorem land_3f (n : Nat) : Int.land (n : Int) 0x3f = ((n &&& 0x3f : Nat) : Int) := rfl

/-- The verdict of `nct7802_detect` as a function of the seven values read. -/
theorem detect_fst (device : Nat) (s : Sys) :
    (nct7802_detect device s).1 =
      if rdval (s.regs device 0x00) = 0 ∧ rdval (s.regs device 0xfd) = 0x50 ∧
          rdval (s.regs device 0xfe) = 0xc3 ∧ rdval (s.regs device 0xff) &&& 0xf0 = 0x20 ∧
          rdval (s.regs device 0x05) &&& 0x1f = 0 ∧ rdval (s.regs device 0x08) &&& 0x3f = 0 ∧
          rdval (s.regs device 0x0f) &&& 0x3f = 0
      then EOK else -ENODEV := by
  simp only [nct7802_detect, read_eq, REG_BANK, REG_VENDOR_ID, REG_CHIP_ID, REG_VERSION_ID,
    REG_TEMP_LSB, REG_TEMP_PECI_LSB, REG_VOLTAGE_LOW, after_read_regs, land_f0, land_1f, land_3f]
  have hneg : ∀ n : Nat, ¬ ((n : Int) < 0) := fun n => by omega
  simp only [hneg, false_or, Nat.cast_eq_ofNat, Nat.cast_eq_zero, ne_eq, Decidable.not_not,
    Nat.cast_ofNat]
  split_ifs <;> first | rfl | (exfalso; norm_cast at *; simp_all)

/-- The reads `nct7802_detect` issues, as a function of the values read. -/
theorem detect_log (device : Nat) (s : Sys) :
    (nct7802_detect device s).2.log = s.log ++
      ([0x00, 0xfd, 0xfe, 0xff, 0x05, 0x08, 0x0f].take
        (if rdval (s.regs device 0x00) ≠ 0 then 1
         else if rdval (s.regs device 0xfd) ≠ 0x50 then 2
         else if rdval (s.regs device 0xfe) ≠ 0xc3 then 3
         else if rdval (s.regs device 0xff) &&& 0xf0 ≠ 0x20 then 4
         else if rdval (s.regs device 0x05) &&& 0x1f ≠ 0 then 5
         else if rdval (s.regs device 0x08) &&& 0x3f ≠ 0 then 6
         else 7)).map (Txn.read device) := by
  simp only [nct7802_detect, read_eq, REG_BANK, REG_VENDOR_ID, REG_CHIP_ID, REG_VERSION_ID,
    REG_TEMP_LSB, REG_TEMP_PECI_LSB, REG_VOLTAGE_LOW, after_read_regs, land_f0, land_1f, land_3f]
  have hneg : ∀ n : Nat, ¬ ((n : Int) < 0) := fun n => by omega
  simp only [hneg, false_or, Nat.cast_eq_ofNat, Nat.cast_eq_zero, ne_eq, Decidable.not_not,
    Nat.cast_ofNat]
  split_ifs <;> first | (simp; done) | (exfalso; norm_cast at *)

/-! ## The temperature loop -/

theorem show_temp_body_spec (device i t2 : Nat) (s : Sys) (hi : i < 6) :
    ∃ s1, show_temp_body device 0 i t2 s = some (t2, s1) ∧ s1.regs = s.regs ∧
      s1.wr_ok = s.wr_ok ∧ s1.log = s.log ++ [Txn.read device (REG_TEMP.getD i 0)] ∧
      s1.out = s.out ++ (temp_line s.regs device t2 i).toList := by
  interval_cases i <;>
    simp only [show_temp_body, show_temp_print, temp_line, REG_TEMP, NameRegTemp, read_eq] <;>
    simp <;> split_ifs <;> simp_all

theorem show_temp_loop_spec (device t2 : Nat) (l : List Nat) :
    ∀ s : Sys, (∀ i ∈ l, i < 6) →
      ∃ s1, show_temp_loop device 0 l t2 s = some (t2, s1) ∧ s1.regs = s.regs ∧
        s1.wr_ok = s.wr_ok ∧
        s1.log = s.log ++ l.map (fun i => Txn.read device (REG_TEMP.getD i 0)) ∧
        s1.out = s.out ++ l.filterMap (temp_line s.regs device t2) := by
  induction l with
  | nil => intro s _; exact ⟨s, by simp [show_temp_loop]⟩
  | cons i rest ih =>
    intro s h
    obtain ⟨s1, hb, hr, hw, hl, ho⟩ := show_temp_body_spec device i t2 s (h i (by simp))
    obtain ⟨s2, hb2, hr2, hw2, hl2, ho2⟩ := ih s1 (fun j hj => h j (by simp [hj]))
    refine ⟨s2, ?_, ?_, ?_, ?_, ?_⟩
    · simp [show_temp_loop, hb, hb2]
    · rw [hr2, hr]
    · rw [hw2, hw]
    · rw [hl2, hl]; simp
    · rw [ho2, ho, hr]
      cases ht : temp_line s.regs device t2 i <;> simp [List.filterMap_cons, ht]

theorem show_temp_spec (device : Nat) (s : Sys) :
    ∃ s1, show_temp device s = some s1 ∧ s1.regs = s.regs ∧ s1.wr_ok = s.wr_ok ∧
      s1.log = s.log ++ [0x01, 0x02, 0x03, 0x04, 0x06, 0x07].map (Txn.read device) ∧
      s1.out = s.out ++ (List.range 6).filterMap (temp_line s.regs device 0) := by
  obtain ⟨s1, h, hr, hw, hl, ho⟩ :=
    show_temp_loop_spec device 0 (List.range 6) s (fun i hi => by simpa using hi)
  refine ⟨s1, ?_, hr, hw, ?_, ho⟩
  · simp [show_temp, REG_TEMP, h]
  · rw [hl]; rfl

/-! ## The voltage loop -/

theorem show_voltage_body_spec (device index : Nat) (s : Sys) (hi : index < 5) :
    ∃ s1, show_voltage_body device index s = some s1 ∧ s1.regs = s.regs ∧
      s1.wr_ok = s.wr_ok ∧
      s1.log = s.log ++
        [Txn.read device (REG_VOLTAGE.getD index 0), Txn.read device 0x0f] ∧
      s1.out = s.out ++ (volt_line s.regs device index).toList := by
  interval_cases index <;>
    simp only [show_voltage_body, volt_line, REG_VOLTAGE, NameRegVolt, VOLTAGE_MULT,
      REG_VOLTAGE_LOW, read_eq] <;>
    simp <;> split_ifs <;> simp_all

theorem show_voltage_loop_spec (device : Nat) (l : List Nat) :
    ∀ s : Sys, (∀ i ∈ l, i < 5) →
      ∃ s1, show_voltage_loop device l s = some s1 ∧ s1.regs = s.regs ∧
        s1.wr_ok = s.wr_ok ∧
        s1.log = s.log ++ l.flatMap
          (fun i => [Txn.read device (REG_VOLTAGE.getD i 0), Txn.read device 0x0f]) ∧
        s1.out = s.out ++ l.filterMap (volt_line s.regs device) := by
  induction l with
  | nil => intro s _; exact ⟨s, by simp [show_voltage_loop]⟩
  | cons i rest ih =>
    intro s h
    obtain ⟨s1, hb, hr, hw, hl, ho⟩ := show_voltage_body_spec device i s (h i (by simp))
    obtain ⟨s2, hb2, hr2, hw2, hl2, ho2⟩ := ih s1 (fun j hj => h j (by simp [hj]))
    refine ⟨s2, ?_, ?_, ?_, ?_, ?_⟩
    · simp [show_voltage_loop, hb, hb2]
    · rw [hr2, hr]
    · rw [hw2, hw]
    · rw [hl2, hl]; simp
    · rw [ho2, ho, hr]
      cases ht : volt_line s.regs device i <;> simp [List.filterMap_cons, ht]

theorem show_voltage_spec (device : Nat) (s : Sys) :
    ∃ s1, show_voltage device s = some s1 ∧ s1.regs = s.regs ∧ s1.wr_ok = s.wr_ok ∧
      s1.log = s.log ++ [0x09, 0x0f, 0x0a, 0x0f, 0x0c, 0x0f, 0x0d, 0x0f, 0x0e, 0x0f].map
        (Txn.read device) ∧
      s1.out = s.out ++ (List.range 5).filterMap (volt_line s.regs device) := by
  obtain ⟨s1, h, hr, hw, hl, ho⟩ :=
    show_voltage_loop_spec device (List.range 5) s (fun i hi => by simpa using hi)
  refine ⟨s1, ?_, hr, hw, ?_, ho⟩
  · simp [show_voltage, REG_VOLTAGE, h]
  · rw [hl]; rfl

/-! ## Printed lines and their labels -/

/-- Among the lines printed over duplicate-free indices, those labelled for index `i` are the line
of index `i`, when labels determine indices. -/
theorem lines_filter_label (f : Nat → Option Reading) (name : Nat → String) (n : Nat)
    (hinj : ∀ i < n, ∀ j < n, name i = name j → i = j)
    (hlab : ∀ j r, f j = some r → r.label = name j)
    (i : Nat) (hi : i < n) (l : List Nat) (hl : ∀ j ∈ l, j < n) (hnd : l.Nodup) :
    (l.filterMap f).filter (fun r => r.label = name i) =
      if i ∈ l then (f i).toList else [] := by
  induction l with
  | nil => rfl
  | cons j rest ih =>
    have hjr := List.nodup_cons.mp hnd
    have ih1 := ih (fun k hk => hl k (by simp [hk])) hjr.2
    by_cases hji : j = i
    · subst hji
      have hnot : j ∉ rest := hjr.1
      rw [if_neg hnot] at ih1
      rw [if_pos (by simp)]
      cases ht : f j with
      | none => rw [List.filterMap_cons_none ht, ih1]; rfl
      | some r =>
        have hr := hlab j r ht
        rw [List.filterMap_cons_some ht, List.filter_cons_of_pos (by simpa using hr), ih1]
        rfl
    · have hne : name j ≠ name i := fun e => hji (hinj j (hl j (by simp)) i hi e)
      have hmem : (i ∈ j :: rest) ↔ i ∈ rest := by
        simp [List.mem_cons, Ne.symm hji]
      simp only [hmem]
      cases ht : f j with
      | none => rw [List.filterMap_cons_none ht, ih1]
      | some r =>
        have hr := hlab j r ht
        rw [List.filterMap_cons_some ht, List.filter_cons_of_neg (by rw [hr]; simpa using hne),
          ih1]

/-- A label occurs among the printed lines exactly when its index prints a line. -/
theorem lines_mem_label (f : Nat → Option Reading) (name : Nat → String) (n : Nat)
    (hinj : ∀ i < n, ∀ j < n, name i = name j → i = j)
    (hlab : ∀ j r, f j = some r → r.label = name j)
    (i : Nat) (hi : i < n) (l : List Nat) (hl : ∀ j ∈ l, j < n) (hnd : l.Nodup) (hil : i ∈ l) :
    name i ∈ (l.filterMap f).map Reading.label ↔ f i ≠ none := by
  have hf := lines_filter_label f name n hinj hlab i hi l hl hnd
  rw [if_pos hil] at hf
  constructor
  · intro hin hnone
    obtain ⟨r, hr, hrl⟩ := List.mem_map.mp hin
    have : r ∈ (l.filterMap f).filter (fun r => r.label = name i) :=
      List.mem_filter.mpr ⟨hr, by simpa using hrl⟩
    rw [hf, hnone] at this
    simp at this
  · intro hne
    cases ht : f i with
    | none => exact absurd ht hne
    | some r =>
      have : r ∈ (l.filterMap f).filter (fun r => r.label = name i) := by
        rw [hf, ht]; simp
      exact List.mem_map.mpr ⟨r, (List.mem_filter.mp this).1, hlab i r ht⟩

theorem temp_names_inj :
    ∀ i < 6, ∀ j < 6, NameRegTemp.getD i "" = NameRegTemp.getD j "" → i = j := by decide

theorem temp_regs_byte : ∀ i < 6, REG_TEMP.getD i 0 % 256 = REG_TEMP.getD i 0 := by decide

theorem temp_line_label (regs : Nat → Nat → Option Nat) (device t2 j : Nat) (r : Reading)
    (h : temp_line regs device t2 j = some r) : r.label = NameRegTemp.getD j "" := by
  unfold temp_line at h
  split_ifs at h
  cases h
  rfl

theorem temp_labels (regs : Nat → Nat → Option Nat) (device t2 : Nat) (l : List Nat) :
    (l.filterMap (temp_line regs device t2)).map Reading.label =
      (l.filter (fun i => rdval (regs device (REG_TEMP.getD i 0)) ≠ 0)).map
        (fun i => NameRegTemp.getD i "") := by
  induction l with
  | nil => rfl
  | cons j rest ih =>
    by_cases hj : rdval (regs device (REG_TEMP.getD j 0)) = 0
    · have ht : temp_line regs device t2 j = none := by unfold temp_line; rw [if_pos hj]
      rw [List.filterMap_cons_none ht, List.filter_cons_of_neg (by simpa using hj)]
      exact ih
    · have ht : temp_line regs device t2 j =
          some ⟨NameRegTemp.getD j "", temp_raw (rdval (regs device (REG_TEMP.getD j 0))) t2,
            (temp_raw (rdval (regs device (REG_TEMP.getD j 0))) t2 : ℚ) / 1000⟩ := by
        unfold temp_line; rw [if_neg hj]
      rw [List.filterMap_cons_some ht, List.filter_cons_of_pos (by simpa using hj),
        List.map_cons, List.map_cons, ih]

theorem temp_filter_label (regs : Nat → Nat → Option Nat) (device t2 i : Nat) (hi : i < 6) :
    ((List.range 6).filterMap (temp_line regs device t2)).filter
        (fun r => r.label = NameRegTemp.getD i "") = (temp_line regs device t2 i).toList := by
  rw [lines_filter_label (temp_line regs device t2) (fun j => NameRegTemp.getD j "") 6
    temp_names_inj (temp_line_label regs device t2) i hi (List.range 6)
    (fun j hj => List.mem_range.mp hj) (List.nodup_range 6), if_pos (List.mem_range.mpr hi)]

theorem volt_names_inj :
    ∀ i < 5, ∀ j < 5, NameRegVolt.getD i "" = NameRegVolt.getD j "" → i = j := by decide

theorem volt_regs_byte : ∀ i < 5, REG_VOLTAGE.getD i 0 % 256 = REG_VOLTAGE.getD i 0 := by decide

theorem volt_line_label (regs : Nat → Nat → Option Nat) (device j : Nat) (r : Reading)
    (h : volt_line regs device j = some r) : r.label = NameRegVolt.getD j "" := by
  unfold volt_line at h
  split_ifs at h
  cases h
  rfl

theorem volt_filter_label (regs : Nat → Nat → Option Nat) (device i : Nat) (hi : i < 5) :
    ((List.range 5).filterMap (volt_line regs device)).filter
        (fun r => r.label = NameRegVolt.getD i "") = (volt_line regs device i).toList := by
  rw [lines_filter_label (volt_line regs device) (fun j => NameRegVolt.getD j "") 5
    volt_names_inj (volt_line_label regs device) i hi (List.range 5)
    (fun j hj => List.mem_range.mp hj) (List.nodup_range 5), if_pos (List.mem_range.mpr hi)]

theorem volt_mem_label (regs : Nat → Nat → Option Nat) (device i : Nat) (hi : i < 5) :
    NameRegVolt.getD i "" ∈ ((List.range 5).filterMap (volt_line regs device)).map Reading.label
      ↔ volt_line regs device i ≠ none :=
  lines_mem_label (volt_line regs device) (fun j => NameRegVolt.getD j "") 5
    volt_names_inj (volt_line_label regs device) i hi (List.range 5)
    (fun _ hj => List.mem_range.mp hj) (List.nodup_range 5) (List.mem_range.mpr hi)

/-! ## Temperature arithmetic -/

theorem temp_raw_zero_frac (v : Nat) (hv : v < 65536) : temp_raw v 0 = 1000 * v := by
  unfold temp_raw
  rw [Nat.shiftLeft_eq]
  have e1 : v * 2 ^ 8 % 2 ^ 32 = 256 * v := by
    rw [Nat.mod_eq_of_lt (by omega)]; omega
  have e2 : 256 * v / 32 = 8 * v := by omega
  have e3 : 8 * v * 125 % 2 ^ 32 = 1000 * v := by
    rw [Nat.mod_eq_of_lt (by omega)]; omega
  rw [e1, e2, e3, Nat.add_zero, Nat.mod_eq_of_lt (by omega)]

theorem temp_shift_scale (h : Nat) : (h <<< 8) / 32 * 125 = 1000 * h := by
  rw [Nat.shiftLeft_eq]
  omega

theorem temp_line_some (regs : Nat → Nat → Option Nat) (device i h : Nat)
    (h1 : 1 ≤ h) (h255 : h ≤ 255) (hreg : regs device (REG_TEMP.getD i 0) = some h) :
    temp_line regs device 0 i = some ⟨NameRegTemp.getD i "", 1000 * h, h⟩ := by
  have hv : rdval (regs device (REG_TEMP.getD i 0)) = h := by
    rw [hreg]; exact rdval_byte h (by omega)
  unfold temp_line
  rw [hv, if_neg (by omega), temp_raw_zero_frac h (by omega)]
  congr 2
  push_cast
  field_simp

/-! ## Voltage arithmetic -/

set_option maxRecDepth 100000 in
theorem shl_or_small : ∀ h < 256, ∀ q < 4, (h <<< 2) ||| q = 4 * h + q := by decide

theorem voltage_ten_bit (hi lo : Nat) (hhi : hi < 256) (hlo : lo < 256) :
    ((hi <<< 2) % 65536 ||| (lo >>> 6)) % 65536 = 4 * hi + lo / 64 := by
  have e1 : (hi <<< 2) % 65536 = hi <<< 2 := by
    rw [Nat.shiftLeft_eq]; omega
  have e2 : lo >>> 6 = lo / 64 := by
    rw [Nat.shiftRight_eq_div_pow]
  have e3 : lo / 64 < 4 := by omega
  rw [e1, e2, shl_or_small hi hhi (lo / 64) e3]
  omega

theorem voltage_ten_bit_raw (hi lo : Nat) (hhi : hi < 256) (hlo : lo < 256) :
    (hi <<< 2) ||| (lo >>> 6) = 4 * hi + lo / 64 := by
  have e2 : lo >>> 6 = lo / 64 := by
    rw [Nat.shiftRight_eq_div_pow]
  have e3 : lo / 64 < 4 := by omega
  rw [e2, shl_or_small hi hhi (lo / 64) e3]

theorem voltage_acc_bytes (index hi lo : Nat) (hhi : hi < 256) (hlo : lo < 256) :
    voltage_acc index hi lo = if index = 0 then 4 * (4 * hi + lo / 64) else 2 * (4 * hi + lo / 64) := by
  unfold voltage_acc
  simp only [voltage_ten_bit hi lo hhi hlo]
  split_ifs <;> omega

theorem voltage_acc_zero_hi (index lo : Nat) (hlo : lo < 65536) :
    voltage_acc index 0 lo = if index = 0 then 4 * (lo >>> 6) else 2 * (lo >>> 6) := by
  unfold voltage_acc
  have e2 : lo >>> 6 = lo / 64 := by
    rw [Nat.shiftRight_eq_div_pow]
  simp only [Nat.zero_shiftLeft, Nat.zero_mod, Nat.zero_or, e2]
  split_ifs <;> omega

theorem volt_mult_ne_zero (index : Nat) (h : index = 0 ∨ index = 1 ∨ index = 4) :
    VOLTAGE_MULT.getD index 0 ≠ 0 := by
  rcases h with rfl | rfl | rfl <;> simp [VOLTAGE_MULT] <;> norm_num

theorem volt_mult_zero (index : Nat) (h : index = 2 ∨ index = 3) :
    VOLTAGE_MULT.getD index 0 = 0 := by
  rcases h with rfl | rfl <;> simp [VOLTAGE_MULT]

theorem voltage_compute_eq_zero (v : Nat) (m : ℚ) :
    voltage_compute v m = 0 ↔ v = 0 ∨ m = 0 := by
  unfold voltage_compute
  rw [mul_eq_zero, div_eq_zero_iff]
  norm_num

theorem volt_line_ne_none (regs : Nat → Nat → Option Nat) (device index : Nat) :
    volt_line regs device index ≠ none ↔
      voltage_compute
        (voltage_acc index (rdval (regs device (REG_VOLTAGE.getD index 0)))
          (rdval (regs device 0x0f)))
        (VOLTAGE_MULT.getD index 0) ≠ 0 := by
  unfold volt_line
  split_ifs with h
  · exact ⟨fun hn => absurd rfl hn, fun hn => absurd h hn⟩
  · exact ⟨fun _ => h, fun _ => by simp⟩

/-! ## The loops with their counters -/

theorem show_temp_for_eq_loop (device : Nat) (reg_temp_low : Int) :
    ∀ (n i t2 : Nat) (s : Sys), i + n = REG_TEMP.length →
      show_temp_for device reg_temp_low i t2 s =
        (show_temp_loop device reg_temp_low (List.range' i n) t2 s).map
          (fun p => (REG_TEMP.length, p.1, p.2)) := by
  intro n
  induction n with
  | zero =>
    intro i t2 s h
    rw [show_temp_for, if_neg (by omega)]
    simp only [List.range'_zero, show_temp_loop, Option.map_some']
    rw [← h, Nat.add_zero]
  | succ n ih =>
    intro i t2 s h
    rw [show_temp_for, if_pos (by omega), List.range'_succ]
    simp only [show_temp_loop]
    cases hb : show_temp_body device reg_temp_low i t2 s with
    | none => rfl
    | some p =>
      obtain ⟨t2', s'⟩ := p
      exact ih (i + 1) t2' s' (by omega)

theorem show_voltage_for_eq_loop (device : Nat) :
    ∀ (n index : Nat) (s : Sys), index + n = REG_VOLTAGE.length →
      show_voltage_for device index s =
        (show_voltage_loop device (List.range' index n) s).map
          (fun p => (REG_VOLTAGE.length, p)) := by
  intro n
  induction n with
  | zero =>
    intro i s h
    rw [show_voltage_for, if_neg (by omega)]
    simp only [List.range'_zero, show_voltage_loop, Option.map_some']
    rw [← h, Nat.add_zero]
  | succ n ih =>
    intro i s h
    rw [show_voltage_for, if_pos (by omega), List.range'_succ]
    simp only [show_voltage_loop]
    cases hb : show_voltage_body device i s with
    | none => rfl
    | some s' => exact ih (i + 1) s' (by omega)

theorem show_temp_eq_for (device : Nat) (s : Sys) :
    show_temp device s = (show_temp_for device 0 0 0 s).map (fun p => p.2.2) := by
  rw [show_temp_for_eq_loop device 0 REG_TEMP.length 0 0 s (Nat.zero_add _), show_temp,
    List.range_eq_range']
  cases show_temp_loop device 0 (List.range' 0 REG_TEMP.length) 0 s <;> rfl

theorem show_voltage_eq_for (device : Nat) (s : Sys) :
    show_voltage device s = (show_voltage_for device 0 s).map (fun p => p.2) := by
  rw [show_voltage_for_eq_loop device REG_VOLTAGE.length 0 s (Nat.zero_add _), show_voltage,
    List.range_eq_range']
  cases show_voltage_loop device (List.range' 0 REG_VOLTAGE.length) s <;> rfl

/-! ## The cycle of `main` -/

theorem write_eq (device addr data : Nat) (s : Sys) :
    i2c_smbus_write_byte_data device addr data s =
      (if s.wr_ok device (addr % 256) (data % 65536) = true then data % 65536 % 65536 else 0,
        after_write device addr data s) := by
  unfold after_write i2c_smbus_write_byte_data devctl_write
  simp only []
  split_ifs <;> rfl

theorem detect_eq (device : Nat) (s : Sys) :
    nct7802_detect device s =
      (if rdval (s.regs device 0x00) = 0 ∧ rdval (s.regs device 0xfd) = 0x50 ∧
          rdval (s.regs device 0xfe) = 0xc3 ∧ rdval (s.regs device 0xff) &&& 0xf0 = 0x20 ∧
          rdval (s.regs device 0x05) &&& 0x1f = 0 ∧ rdval (s.regs device 0x08) &&& 0x3f = 0 ∧
          rdval (s.regs device 0x0f) &&& 0x3f = 0
        then EOK else -ENODEV, after_detect device s) :=
  Prod.ext (detect_fst device s) rfl

theorem probe_eq (device : Nat) (s : Sys) :
    devctl_read { s with cmd := { s.cmd with
      cmd_type := SMBUS_CMD_BYTE_DATA, slv_addr := device, smbus_cmd := 0x00, length := 0x00 } }
      = ((s.regs device 0).isSome, after_read device 0 s) := by
  unfold after_read i2c_smbus_read_byte_data devctl_read
  cases h : s.regs device 0 <;> simp [h]

@[simp] theorem after_detect_regs (device : Nat) (s : Sys) :
    (after_detect device s).regs = s.regs := by
  unfold after_detect
  simp only [nct7802_detect, read_eq]
  split_ifs <;> simp

@[simp] theorem after_detect_wr_ok (device : Nat) (s : Sys) :
    (after_detect device s).wr_ok = s.wr_ok := by
  unfold after_detect
  simp only [nct7802_detect, read_eq]
  split_ifs <;> simp

@[simp] theorem after_detect_out (device : Nat) (s : Sys) :
    (after_detect device s).out = s.out := by
  unfold after_detect
  simp only [nct7802_detect, read_eq]
  split_ifs <;> simp

theorem after_detect_log (device : Nat) (s : Sys) :
    (after_detect device s).log = s.log ++
      ([0x00, 0xfd, 0xfe, 0xff, 0x05, 0x08, 0x0f].take
        (if rdval (s.regs device 0x00) ≠ 0 then 1
         else if rdval (s.regs device 0xfd) ≠ 0x50 then 2
         else if rdval (s.regs device 0xfe) ≠ 0xc3 then 3
         else if rdval (s.regs device 0xff) &&& 0xf0 ≠ 0x20 then 4
         else if rdval (s.regs device 0x05) &&& 0x1f ≠ 0 then 5
         else if rdval (s.regs device 0x08) &&& 0x3f ≠ 0 then 6
         else 7)).map (Txn.read device) :=
  detect_log device s

theorem probe_snd (device : Nat) (s : Sys) :
    (devctl_read { s with cmd := { s.cmd with
      cmd_type := SMBUS_CMD_BYTE_DATA, slv_addr := device, smbus_cmd := 0x00, length := 0x00 } }).2
      = after_read device 0 s := by
  rw [probe_eq]

theorem main_cycle_eq (s : Sys) :
    main_cycle s =
      match show_voltage 0x2c
        (after_write 0x2c REG_VMON_ENABLE 0x3 (after_write 0x2c REG_MODE 0x3F
          (after_write 0x2c REG_START 0x01 (after_write 0x2c REG_BANK 0
            (after_detect 0x2c (after_read 0x2c REG_VERSION_ID (after_read 0x2c REG_CHIP_ID
              (after_read 0x2c 0 s)))))))) with
      | none => none
      | some sv => show_temp 0x2c (after_write 0x2c REG_MODE 0x40 sv) := by
  rw [← probe_snd]
  rfl

/-- The cycle of `main` returns; its transactions and printed lines as functions of the register
content. -/
theorem main_cycle_spec (s : Sys) :
    ∃ s1, main_cycle s = some s1 ∧ s1.regs = s.regs ∧
      s1.log = s.log ++
        [Txn.read 0x2c 0x00, Txn.read 0x2c 0xfe, Txn.read 0x2c 0xff] ++
        ([0x00, 0xfd, 0xfe, 0xff, 0x05, 0x08, 0x0f].take
          (if rdval (s.regs 0x2c 0x00) ≠ 0 then 1
           else if rdval (s.regs 0x2c 0xfd) ≠ 0x50 then 2
           else if rdval (s.regs 0x2c 0xfe) ≠ 0xc3 then 3
           else if rdval (s.regs 0x2c 0xff) &&& 0xf0 ≠ 0x20 then 4
           else if rdval (s.regs 0x2c 0x05) &&& 0x1f ≠ 0 then 5
           else if rdval (s.regs 0x2c 0x08) &&& 0x3f ≠ 0 then 6
           else 7)).map (Txn.read 0x2c) ++
        [Txn.write 0x2c 0x00 0, Txn.write 0x2c 0x21 0x01, Txn.write 0x2c 0x22 0x3f,
          Txn.write 0x2c 0x25 0x3] ++
        [0x09, 0x0f, 0x0a, 0x0f, 0x0c, 0x0f, 0x0d, 0x0f, 0x0e, 0x0f].map (Txn.read 0x2c) ++
        [Txn.write 0x2c 0x22 0x40] ++
        [0x01, 0x02, 0x03, 0x04, 0x06, 0x07].map (Txn.read 0x2c) ∧
      s1.out = s.out ++ (List.range 5).filterMap (volt_line s.regs 0x2c) ++
        (List.range 6).filterMap (temp_line s.regs 0x2c 0) := by
  obtain ⟨sv, hv, hvr, _, hvl, hvo⟩ := show_voltage_spec 0x2c
    (after_write 0x2c REG_VMON_ENABLE 0x3 (after_write 0x2c REG_MODE 0x3F
      (after_write 0x2c REG_START 0x01 (after_write 0x2c REG_BANK 0
        (after_detect 0x2c (after_read 0x2c REG_VERSION_ID (after_read 0x2c REG_CHIP_ID
          (after_read 0x2c 0 s))))))))
  obtain ⟨st, ht, htr, _, htl, hto⟩ := show_temp_spec 0x2c (after_write 0x2c REG_MODE 0x40 sv)
  simp only [after_write_regs, after_detect_regs, after_read_regs] at hvr hvo htr hto
  refine ⟨st, ?_, ?_, ?_, ?_⟩
  · rw [main_cycle_eq, hv]
    exact ht
  · rw [htr, hvr]
  · rw [htl, after_write_log, hvl]
    simp only [after_write_log, after_detect_log, after_read_log, after_read_regs]
    simp [REG_VMON_ENABLE, REG_MODE, REG_START, REG_BANK, REG_VERSION_ID, REG_CHIP_ID]
  · rw [hto, after_write_out, hvo, hvr]
    simp only [after_write_out, after_detect_out, after_read_out]

/-! # Claims -/

/-! ## C1: the verdict of detection -/

/-- C1: with every read succeeding on a register content of bytes, `nct7802_detect` returns `EOK`
(which is 0) exactly when the seven checks hold and `-ENODEV` otherwise; from a confirmed content,
changing one of the seven registers to a value violating its check gives `-ENODEV`; bank 0, vendor
0x50, chip 0xc3, version 0x21 with the reserved bits clear is confirmed. -/
theorem detect_confirmed_iff_seven_checks (device : Nat) (s : Sys) (reg : Nat → Nat)
    (hbyte : ∀ a, reg a < 256) (hregs : ∀ a, s.regs device a = some (reg a)) :
    ((nct7802_detect device s).1 = EOK ↔
      (reg 0x00 = 0 ∧ reg 0xfd = 0x50 ∧ reg 0xfe = 0xc3 ∧ reg 0xff &&& 0xf0 = 0x20 ∧
        reg 0x05 &&& 0x1f = 0 ∧ reg 0x08 &&& 0x3f = 0 ∧ reg 0x0f &&& 0x3f = 0)) ∧
    (¬ (reg 0x00 = 0 ∧ reg 0xfd = 0x50 ∧ reg 0xfe = 0xc3 ∧ reg 0xff &&& 0xf0 = 0x20 ∧
        reg 0x05 &&& 0x1f = 0 ∧ reg 0x08 &&& 0x3f = 0 ∧ reg 0x0f &&& 0x3f = 0) →
      (nct7802_detect device s).1 = -ENODEV) ∧
    ((nct7802_detect device s).1 = EOK →
      ∀ (a v : Nat) (t : Sys), v < 256 →
        (a = 0x00 ∧ v ≠ 0 ∨ a = 0xfd ∧ v ≠ 0x50 ∨ a = 0xfe ∧ v ≠ 0xc3 ∨
          a = 0xff ∧ v &&& 0xf0 ≠ 0x20 ∨ a = 0x05 ∧ v &&& 0x1f ≠ 0 ∨
          a = 0x08 ∧ v &&& 0x3f ≠ 0 ∨ a = 0x0f ∧ v &&& 0x3f ≠ 0) →
        (∀ b, t.regs device b = some (Function.update reg a v b)) →
        (nct7802_detect device t).1 = -ENODEV) ∧
    (reg 0x00 = 0 ∧ reg 0xfd = 0x50 ∧ reg 0xfe = 0xc3 ∧ reg 0xff = 0x21 ∧
        reg 0x05 &&& 0x1f = 0 ∧ reg 0x08 &&& 0x3f = 0 ∧ reg 0x0f &&& 0x3f = 0 →
      (nct7802_detect device s).1 = EOK) ∧
    EOK = 0 ∧ -ENODEV ≠ EOK := by
  have hne : (-ENODEV : Int) ≠ EOK := by decide
  have key : (nct7802_detect device s).1 =
      if reg 0x00 = 0 ∧ reg 0xfd = 0x50 ∧ reg 0xfe = 0xc3 ∧ reg 0xff &&& 0xf0 = 0x20 ∧
        reg 0x05 &&& 0x1f = 0 ∧ reg 0x08 &&& 0x3f = 0 ∧ reg 0x0f &&& 0x3f = 0
      then EOK else -ENODEV := by
    rw [detect_fst]
    simp only [hregs, rdval_byte _ (hbyte _)]
  refine ⟨?_, ?_, ?_, ?_, rfl, hne⟩
  · rw [key]
    split_ifs with h
    · exact ⟨fun _ => h, fun _ => rfl⟩
    · exact ⟨fun e => absurd e hne, fun e => absurd e h⟩
  · intro h
    rw [key, if_neg h]
  · intro _ a v t hv hviol ht
    rw [detect_fst]
    have hb : ∀ b, rdval (t.regs device b) = Function.update reg a v b := by
      intro b
      rw [ht b]
      apply rdval_byte
      by_cases hab : b = a
      · subst hab; simpa using hv
      · simpa [Function.update_noteq hab] using hbyte b
    simp only [hb]
    rw [if_neg]
    rintro ⟨h0, h1, h2, h3, h4, h5, h6⟩
    rcases hviol with ⟨rfl, hv⟩ | ⟨rfl, hv⟩ | ⟨rfl, hv⟩ | ⟨rfl, hv⟩ | ⟨rfl, hv⟩ | ⟨rfl, hv⟩ |
      ⟨rfl, hv⟩
    · exact hv (by simpa using h0)
    · exact hv (by simpa using h1)
    · exact hv (by simpa using h2)
    · exact hv (by simpa using h3)
    · exact hv (by simpa using h4)
    · exact hv (by simpa using h5)
    · exact hv (by simpa using h6)
  · rintro ⟨h0, h1, h2, h3, h4, h5, h6⟩
    rw [key, if_pos]
    refine ⟨h0, h1, h2, ?_, h4, h5, h6⟩
    rw [h3]; decide

/-- C1, at a concrete content: bank 0, vendor 0x50, chip 0xc3, version 0x21, every other
register 0, read from slave 0x2c, is confirmed. -/
theorem detect_confirmed_iff_seven_checks_witness :
    (nct7802_detect 0x2c (sys_of (fun _ a => some (regs_confirmed a)))).1 = EOK :=
  (detect_confirmed_iff_seven_checks 0x2c (sys_of (fun _ a => some (regs_confirmed a)))
    regs_confirmed
    (fun a => by unfold regs_confirmed; split_ifs <;> decide)
    (fun _ => rfl)).2.2.2.1 (by decide)

/-! ## C2: temperature channels printed -/

/-- C2: `show_temp` returns, reads the six high-byte registers in table order, and prints a line
for exactly the channels whose high-byte read returns a non-zero value, labelled by channel and in
table order; a channel whose read returns 0 or fails prints nothing. -/
theorem show_temp_emits_exactly_nonzero_channels (device : Nat) (s : Sys) :
    ∃ s1 new, show_temp device s = some s1 ∧ s1.out = s.out ++ new ∧
      s1.log = s.log ++ [0x01, 0x02, 0x03, 0x04, 0x06, 0x07].map (Txn.read device) ∧
      new.map Reading.label =
        ((List.range 6).filter
          (fun i => (i2c_smbus_read_byte_data device (REG_TEMP.getD i 0) s).1 ≠ 0)).map
          (fun i => NameRegTemp.getD i "") ∧
      (∀ i < 6, (NameRegTemp.getD i "" ∈ new.map Reading.label ↔
        (i2c_smbus_read_byte_data device (REG_TEMP.getD i 0) s).1 ≠ 0)) ∧
      (∀ i < 6, s.regs device (REG_TEMP.getD i 0) = none →
        (i2c_smbus_read_byte_data device (REG_TEMP.getD i 0) s).1 = 0 ∧
        NameRegTemp.getD i "" ∉ new.map Reading.label) := by
  obtain ⟨s1, h, _, _, hl, ho⟩ := show_temp_spec device s
  have hrd : ∀ i < 6, (i2c_smbus_read_byte_data device (REG_TEMP.getD i 0) s).1 =
      rdval (s.regs device (REG_TEMP.getD i 0)) := by
    intro i hi
    rw [read_fst, temp_regs_byte i hi]
  have hlab : ((List.range 6).filterMap (temp_line s.regs device 0)).map Reading.label =
      ((List.range 6).filter
        (fun i => (i2c_smbus_read_byte_data device (REG_TEMP.getD i 0) s).1 ≠ 0)).map
        (fun i => NameRegTemp.getD i "") := by
    rw [temp_labels]
    congr 1
    apply List.filter_congr
    intro i hi
    rw [hrd i (List.mem_range.mp hi)]
  have hmem : ∀ i < 6, (NameRegTemp.getD i "" ∈
      ((List.range 6).filterMap (temp_line s.regs device 0)).map Reading.label ↔
        (i2c_smbus_read_byte_data device (REG_TEMP.getD i 0) s).1 ≠ 0) := by
    intro i hi
    rw [hlab, List.mem_map]
    constructor
    · rintro ⟨j, hj, hji⟩
      rw [List.mem_filter] at hj
      have hj6 : j < 6 := List.mem_range.mp hj.1
      have := temp_names_inj j hj6 i hi hji
      subst this
      simpa using hj.2
    · intro hne
      exact ⟨i, List.mem_filter.mpr ⟨List.mem_range.mpr hi, by simpa using hne⟩, rfl⟩
  refine ⟨s1, _, h, ho, hl, hlab, hmem, ?_⟩
  intro i hi hnone
  have h0 : (i2c_smbus_read_byte_data device (REG_TEMP.getD i 0) s).1 = 0 := by
    rw [hrd i hi, hnone]; rfl
  exact ⟨h0, fun hin => (hmem i hi).mp hin h0⟩

/-- C2, at a concrete content: registers 0x01 and 0x07 read 0x28 and 0x30, register 0x03 reads 0
and every other read fails; the lines printed are those of channels 0 and 5, in this order. -/
theorem show_temp_emits_exactly_nonzero_channels_witness :
    ∃ s1 new, show_temp 0x2c (sys_of (fun _ a =>
        if a = 0x01 then some 0x28 else if a = 0x07 then some 0x30
        else if a = 0x03 then some 0 else none)) = some s1 ∧
      s1.out = new ∧ new.map Reading.label = ["Remote Diode 1 PCH", "PECI 1"] ∧
      "Remote Diode 3" ∉ new.map Reading.label := by
  obtain ⟨s1, new, h, ho, _, hlab, hmem, _⟩ := show_temp_emits_exactly_nonzero_channels 0x2c
    (sys_of (fun _ a =>
        if a = 0x01 then some 0x28 else if a = 0x07 then some 0x30
        else if a = 0x03 then some 0 else none))
  refine ⟨s1, new, h, by simpa [sys_of] using ho, hlab.trans (by decide), ?_⟩
  exact fun hin => (hmem 2 (by decide)).mp hin (by decide)

/-! ## C3: voltage channels printed -/

/-- C3: `show_voltage` returns; with `hi` and `lo` the values read from the channel register and
from the shared low-byte register, the channel prints a line exactly when
`(accumulator / 1000) * VOLTAGE_MULT[index]` is not zero, the line carries that accumulator and
value, channels 2 and 3 never print a line, and channels 0, 1 and 4 print one exactly when the
accumulator is not zero. -/
theorem show_voltage_emits_iff_scaled_nonzero (device : Nat) (s : Sys) (index hi lo : Nat)
    (hidx : index < 5)
    (hhi : (i2c_smbus_read_byte_data device (REG_VOLTAGE.getD index 0) s).1 = hi)
    (hlo : (i2c_smbus_read_byte_data device REG_VOLTAGE_LOW s).1 = lo) :
    ∃ s1 new, show_voltage device s = some s1 ∧ s1.out = s.out ++ new ∧
      (NameRegVolt.getD index "" ∈ new.map Reading.label ↔
        (voltage_acc index hi lo : ℚ) / 1000 * VOLTAGE_MULT.getD index 0 ≠ 0) ∧
      (∀ r ∈ new, r.label = NameRegVolt.getD index "" →
        r.raw = voltage_acc index hi lo ∧
        r.scaled = (voltage_acc index hi lo : ℚ) / 1000 * VOLTAGE_MULT.getD index 0) ∧
      (index = 2 ∨ index = 3 → NameRegVolt.getD index "" ∉ new.map Reading.label) ∧
      (index = 0 ∨ index = 1 ∨ index = 4 →
        (NameRegVolt.getD index "" ∈ new.map Reading.label ↔ voltage_acc index hi lo ≠ 0)) ∧
      VOLTAGE_MULT = [1, 1.698947368, 0, 0, 7.17] := by
  obtain ⟨s1, h, _, _, _, ho⟩ := show_voltage_spec device s
  rw [read_fst, volt_regs_byte index hidx] at hhi
  rw [read_fst] at hlo
  have hlo2 : rdval (s.regs device 0x0f) = lo := hlo
  have hmem := volt_mem_label s.regs device index hidx
  rw [volt_line_ne_none, hhi, hlo2] at hmem
  refine ⟨s1, _, h, ho, hmem, ?_, ?_, ?_, rfl⟩
  · intro r hr hrl
    have : r ∈ ((List.range 5).filterMap (volt_line s.regs device)).filter
        (fun r => r.label = NameRegVolt.getD index "") :=
      List.mem_filter.mpr ⟨hr, by simpa using hrl⟩
    rw [volt_filter_label s.regs device index hidx] at this
    unfold volt_line at this
    rw [hhi, hlo2] at this
    split_ifs at this
    · simp at this
    · simp only [Option.toList, List.mem_singleton] at this
      subst this
      exact ⟨rfl, rfl⟩
  · intro h23
    rw [hmem]
    have := volt_mult_zero index h23
    unfold voltage_compute
    rw [this]
    simp
  · intro h014
    rw [hmem]
    have := volt_mult_ne_zero index h014
    rw [Ne, voltage_compute_eq_zero, or_iff_left this]

/-- C3, at a concrete content: with high byte 0x80 in register 0x09 and low byte 0x40, channel 0
prints a line (accumulator 2052), and channel 2 prints none. -/
theorem show_voltage_emits_iff_scaled_nonzero_witness :
    ∃ s1 new, show_voltage 0x2c (sys_of (fun _ a => some (if a = 0x09 then 0x80 else 0x40)))
        = some s1 ∧ s1.out = new ∧ "VCore 3V3" ∈ new.map Reading.label := by
  obtain ⟨s1, new, h, ho, hiff, _, _, h014, _⟩ :=
    show_voltage_emits_iff_scaled_nonzero 0x2c
      (sys_of (fun _ a => some (if a = 0x09 then 0x80 else 0x40))) 0 0x80 0x40
      (by decide) (by simp [read_fst, sys_of, REG_VOLTAGE, rdval])
      (by simp [read_fst, sys_of, REG_VOLTAGE_LOW, rdval])
  refine ⟨s1, new, h, by simpa [sys_of] using ho, ?_⟩
  exact (h014 (Or.inl rfl)).mpr (by decide)

/-! ## C4: PECI channels -/

/-- C4, as stated, fails: with high byte 0x64 on PECI 0 and 0x20 in the low-byte registers,
`show_temp` prints the single line with raw value 100000, not
`(0x64<<8)/32*125 + ((0x20&0xe0)>>5)*125 = 100125`. -/
theorem show_temp_peci_fraction_counterexample :
    ∃ s1, show_temp 0x2c (sys_of regs_peci_fraction) = some s1 ∧
      s1.out = [⟨NameRegTemp.getD 4 "", 100000, 100⟩] ∧
      (0x64 <<< 8) / 32 * 125 + ((0x20 &&& 0xe0) >>> 5) * 125 = 100125 ∧
      ¬ ∃ r ∈ s1.out, r.raw = (0x64 <<< 8) / 32 * 125 + ((0x20 &&& 0xe0) >>> 5) * 125 := by
  obtain ⟨s1, hs, _, _, _, ho⟩ := show_temp_spec 0x2c (sys_of regs_peci_fraction)
  have hout : s1.out = [⟨NameRegTemp.getD 4 "", 100000, 100⟩] := by
    rw [ho]
    have hr : List.range 6 = [0, 1, 2, 3, 4, 5] := rfl
    have hn : ∀ i, i ≠ 4 → i < 6 → temp_line (sys_of regs_peci_fraction).regs 0x2c 0 i = none := by
      intro i hi4 hi6
      interval_cases i <;> first | exact absurd rfl hi4 | rfl
    have h4 : temp_line (sys_of regs_peci_fraction).regs 0x2c 0 4 =
        some ⟨NameRegTemp.getD 4 "", 100000, 100⟩ :=
      temp_line_some _ 0x2c 4 0x64 (by decide) (by decide) rfl
    rw [hr, List.filterMap_cons_none (hn 0 (by decide) (by decide)),
      List.filterMap_cons_none (hn 1 (by decide) (by decide)),
      List.filterMap_cons_none (hn 2 (by decide) (by decide)),
      List.filterMap_cons_none (hn 3 (by decide) (by decide)),
      List.filterMap_cons_some h4,
      List.filterMap_cons_none (hn 5 (by decide) (by decide))]
    rfl
  refine ⟨s1, hs, hout, by decide, ?_⟩
  rw [hout]
  rintro ⟨r, hr, hraw⟩
  rw [List.mem_singleton] at hr
  subst hr
  revert hraw
  decide

/-- C4, amended: for a PECI channel (index 4 or 5) whose high-byte register reads `h` in 1..255,
whatever the low-byte registers hold, `show_temp` prints exactly one line for the channel, with
`rawCombined = (h << 8) / 32 * 125` and no fractional term; the lines printed depend on the
register content only, so a call in any state with the same content prints the same lines; for
`h = 0x64` the raw value is 100000. -/
theorem show_temp_peci_no_fraction (device : Nat) (s : Sys) (i h : Nat) (hi : i = 4 ∨ i = 5)
    (h1 : 1 ≤ h) (h255 : h ≤ 255) (hreg : s.regs device (REG_TEMP.getD i 0) = some h) :
    ∃ s1 new, show_temp device s = some s1 ∧ s1.out = s.out ++ new ∧ s1.regs = s.regs ∧
      new.filter (fun r => r.label = NameRegTemp.getD i "") =
        [⟨NameRegTemp.getD i "", (h <<< 8) / 32 * 125, (((h <<< 8) / 32 * 125 : Nat) : ℚ) / 1000⟩] ∧
      (∀ t : Sys, (∀ a, t.regs device a = s.regs device a) →
        ∃ t1, show_temp device t = some t1 ∧ t1.out = t.out ++ new) ∧
      (h = 0x64 → (h <<< 8) / 32 * 125 = 100000) := by
  obtain ⟨s1, hs, hr, _, _, ho⟩ := show_temp_spec device s
  refine ⟨s1, _, hs, ho, hr, ?_, ?_, ?_⟩
  · rw [temp_filter_label s.regs device 0 i (by omega),
      temp_line_some s.regs device i h h1 h255 hreg, temp_shift_scale]
    simp only [Option.toList]
    congr 2
    push_cast
    field_simp
  · intro t ht
    obtain ⟨t1, hts, _, _, _, hto⟩ := show_temp_spec device t
    refine ⟨t1, hts, ?_⟩
    rw [hto]
    congr 1
    apply List.filterMap_congr
    intro j _
    unfold temp_line
    rw [ht]
  · rintro rfl
    decide

/-- C4 amended, at the content of the counterexample: PECI 0 reads 0x64 and the low-byte registers
hold 0x20; the line of the channel has raw value 100000. -/
theorem show_temp_peci_no_fraction_witness :
    ∃ s1 new, show_temp 0x2c (sys_of regs_peci_fraction) = some s1 ∧ s1.out = new ∧
      new.filter (fun r => r.label = "PECI 0 CPU\t") =
        [⟨"PECI 0 CPU\t", 0x64 <<< 8 / 32 * 125, ((0x64 <<< 8 / 32 * 125 : Nat) : ℚ) / 1000⟩] ∧
      0x64 <<< 8 / 32 * 125 = 100000 := by
  obtain ⟨s1, new, h, ho, _, hf, _, hv⟩ :=
    show_temp_peci_no_fraction 0x2c (sys_of regs_peci_fraction) 4 0x64 (Or.inl rfl)
      (by decide) (by decide) rfl
  exact ⟨s1, new, h, by simpa [sys_of] using ho, hf, hv rfl⟩

/-! ## C5: failed reads during detection -/

/-- C5, at the failing input: with bank, vendor id, chip id and version id matching and the read
of the temperature-low-byte register 0x05 failing, `nct7802_detect` returns `EOK`, not
`-ENODEV`: the failed read returns 0, which passes the reserved-bits check. -/
theorem detect_failed_temp_lsb_read_returns_eok :
    regs_temp_lsb_fails 0x2c REG_TEMP_LSB = none ∧
    (i2c_smbus_read_byte_data 0x2c REG_TEMP_LSB (sys_of regs_temp_lsb_fails)).1 = 0 ∧
    (nct7802_detect 0x2c (sys_of regs_temp_lsb_fails)).1 = EOK ∧
    (nct7802_detect 0x2c (sys_of regs_temp_lsb_fails)).1 ≠ -ENODEV := by
  refine ⟨rfl, rfl, ?_, ?_⟩
  · rw [detect_fst]; decide
  · rw [detect_fst]; decide

/-! ## C6: voltage channels with a zero high byte -/

/-- C6, as stated, fails: with the high-byte read of channel 0 failing and the shared low-byte
register 0x0f holding 0xff, `show_voltage` prints a line for channel 0 (accumulator 12). -/
theorem show_voltage_zero_high_byte_counterexample :
    regs_volt_low_bits 0x2c (REG_VOLTAGE.getD 0 0) = none ∧
    (i2c_smbus_read_byte_data 0x2c (REG_VOLTAGE.getD 0 0) (sys_of regs_volt_low_bits)).1 = 0 ∧
    ∃ s1, show_voltage 0x2c (sys_of regs_volt_low_bits) = some s1 ∧
      (⟨NameRegVolt.getD 0 "", 12, 12 / 1000⟩ : Reading) ∈ s1.out := by
  refine ⟨rfl, rfl, ?_⟩
  obtain ⟨s1, h, _, _, _, ho⟩ := show_voltage_spec 0x2c (sys_of regs_volt_low_bits)
  refine ⟨s1, h, ?_⟩
  rw [ho]
  have h0 : volt_line (sys_of regs_volt_low_bits).regs 0x2c 0 =
      some ⟨NameRegVolt.getD 0 "", 12, 12 / 1000⟩ := by
    simp [volt_line, sys_of, regs_volt_low_bits, REG_VOLTAGE, VOLTAGE_MULT, NameRegVolt, rdval,
      voltage_acc, voltage_compute]
  have hr : List.range 5 = 0 :: [1, 2, 3, 4] := rfl
  rw [hr, List.filterMap_cons_some h0]
  simp

/-- C6, amended: when the high-byte read of a voltage channel returns 0 or fails, `show_voltage`
prints a line for the channel exactly when the channel is 0, 1 or 4 and the value read from the
shared low-byte register 0x0f has a bit above bit 5 set (`lo >> 6` is not 0); so no line is printed
for channels 2 and 3, nor when the low-byte read fails or returns a value below 64. -/
theorem show_voltage_zero_high_byte (device : Nat) (s : Sys) (index : Nat) (hidx : index < 5)
    (hhi : s.regs device (REG_VOLTAGE.getD index 0) = none ∨
      (i2c_smbus_read_byte_data device (REG_VOLTAGE.getD index 0) s).1 = 0) :
    ∃ s1 new, show_voltage device s = some s1 ∧ s1.out = s.out ++ new ∧
      (NameRegVolt.getD index "" ∈ new.map Reading.label ↔
        (index = 0 ∨ index = 1 ∨ index = 4) ∧
          (i2c_smbus_read_byte_data device REG_VOLTAGE_LOW s).1 >>> 6 ≠ 0) ∧
      (index = 2 ∨ index = 3 → NameRegVolt.getD index "" ∉ new.map Reading.label) ∧
      (s.regs device REG_VOLTAGE_LOW = none ∨
          (i2c_smbus_read_byte_data device REG_VOLTAGE_LOW s).1 < 64 →
        NameRegVolt.getD index "" ∉ new.map Reading.label) := by
  obtain ⟨s1, h, _, _, _, ho⟩ := show_voltage_spec device s
  have hhi0 : rdval (s.regs device (REG_VOLTAGE.getD index 0)) = 0 := by
    rcases hhi with hn | hz
    · rw [hn]; rfl
    · rwa [read_fst, volt_regs_byte index hidx] at hz
  have hlo : (i2c_smbus_read_byte_data device REG_VOLTAGE_LOW s).1
      = rdval (s.regs device 0x0f) := by
    rw [read_fst]; rfl
  have hmem := volt_mem_label s.regs device index hidx
  rw [volt_line_ne_none, hhi0, Ne, voltage_compute_eq_zero,
    voltage_acc_zero_hi index _ (rdval_lt _)] at hmem
  have hcases : index = 0 ∨ index = 1 ∨ index = 2 ∨ index = 3 ∨ index = 4 := by omega
  have key : NameRegVolt.getD index "" ∈
        ((List.range 5).filterMap (volt_line s.regs device)).map Reading.label ↔
      (index = 0 ∨ index = 1 ∨ index = 4) ∧ rdval (s.regs device 0x0f) >>> 6 ≠ 0 := by
    rw [hmem]
    rcases hcases with rfl | rfl | rfl | rfl | rfl
    · have := volt_mult_ne_zero 0 (by decide)
      simp only [this, or_false]
      norm_num
    · have := volt_mult_ne_zero 1 (by decide)
      simp only [this, or_false]
      norm_num
    · have := volt_mult_zero 2 (by decide)
      simp only [this, or_true, not_true]
      norm_num
    · have := volt_mult_zero 3 (by decide)
      simp only [this, or_true, not_true]
      norm_num
    · have := volt_mult_ne_zero 4 (by decide)
      simp only [this, or_false]
      norm_num
  refine ⟨s1, _, h, ho, ?_, ?_, ?_⟩
  · rw [hlo]; exact key
  · intro h23 hin
    have := (key.mp hin).1
    omega
  · intro hl hin
    have hne := (key.mp hin).2
    apply hne
    rw [Nat.shiftRight_eq_div_pow]
    rcases hl with hn | hlt
    · have hreg : s.regs device 0x0f = none := hn
      rw [hreg]; rfl
    · rw [hlo] at hlt
      omega

/-- C6 amended, at a concrete content: every read fails, so channel 0 prints no line. -/
theorem show_voltage_zero_high_byte_witness :
    ∃ s1 new, show_voltage 0x2c (sys_of (fun _ _ => none)) = some s1 ∧ s1.out = new ∧
      "VCore 3V3" ∉ new.map Reading.label := by
  obtain ⟨s1, new, h, ho, _, _, hlow⟩ :=
    show_voltage_zero_high_byte 0x2c (sys_of (fun _ _ => none)) 0 (by decide) (Or.inl rfl)
  exact ⟨s1, new, h, by simpa [sys_of] using ho, hlow (Or.inl rfl)⟩

/-! ## C7: the accumulator of channel 0 -/

/-- C7: for bytes `hi`, `lo`, the accumulator of channel 0 is twice the accumulator of any of the
channels 1..4: it is `4 * v` against `2 * v` for `v = (hi << 2) | (lo >> 6)`, the 16-bit arithmetic
not wrapping. -/
theorem voltage_acc_channel0_twice_other (hi lo index : Nat) (hhi : hi < 256) (hlo : lo < 256)
    (h1 : 1 ≤ index) (h4 : index ≤ 4) :
    voltage_acc 0 hi lo = 2 * voltage_acc index hi lo ∧
    voltage_acc 0 hi lo = 4 * ((hi <<< 2) ||| (lo >>> 6)) ∧
    voltage_acc index hi lo = 2 * ((hi <<< 2) ||| (lo >>> 6)) := by
  have hne : index ≠ 0 := by omega
  rw [voltage_acc_bytes 0 hi lo hhi hlo, voltage_acc_bytes index hi lo hhi hlo,
    voltage_ten_bit_raw hi lo hhi hlo, if_pos rfl, if_neg hne]
  omega

/-- C7, at the bytes 0xff, 0xff and channel 1: 4092 is twice 2046. -/
theorem voltage_acc_channel0_twice_other_witness :
    voltage_acc 0 0xff 0xff = 2 * voltage_acc 1 0xff 0xff ∧ voltage_acc 0 0xff 0xff = 4092 :=
  ⟨(voltage_acc_channel0_twice_other 0xff 0xff 1 (by decide) (by decide) (by decide)
    (by decide)).1, by decide⟩

/-! ## C8: the ten-bit value and the accumulator bounds -/

/-- C8: for bytes `hi`, `lo`, the value `(hi << 2) | (lo >> 6)` is `4 * hi + lo / 64`, at most
1023, with `hi` as its top eight bits and bits 7..6 of `lo` as its low two bits; the accumulator is
four times it (at most 4092) for channel 0 and twice it (at most 2046) for channels 1..4, so the
16-bit accumulator does not wrap. -/
theorem voltage_acc_ten_bit_no_wrap (hi lo : Nat) (hhi : hi < 256) (hlo : lo < 256) :
    (hi <<< 2) ||| (lo >>> 6) = 4 * hi + lo / 64 ∧
    (hi <<< 2) ||| (lo >>> 6) ≤ 1023 ∧
    ((hi <<< 2) ||| (lo >>> 6)) / 4 = hi ∧
    ((hi <<< 2) ||| (lo >>> 6)) % 4 = lo / 64 ∧
    voltage_acc 0 hi lo = 4 * ((hi <<< 2) ||| (lo >>> 6)) ∧
    voltage_acc 0 hi lo ≤ 4092 ∧
    (∀ index, 1 ≤ index → index ≤ 4 →
      voltage_acc index hi lo = 2 * ((hi <<< 2) ||| (lo >>> 6)) ∧
      voltage_acc index hi lo ≤ 2046) := by
  have hv := voltage_ten_bit_raw hi lo hhi hlo
  rw [voltage_acc_bytes 0 hi lo hhi hlo, hv, if_pos rfl]
  refine ⟨rfl, by omega, by omega, by omega, rfl, by omega, ?_⟩
  intro index h1 h4
  have hne : index ≠ 0 := by omega
  rw [voltage_acc_bytes index hi lo hhi hlo, if_neg hne]
  exact ⟨rfl, by omega⟩

/-- C8, at the bytes 0xff, 0xff: the value is 1023 and the accumulator of channel 0 is 4092. -/
theorem voltage_acc_ten_bit_no_wrap_witness :
    (0xff <<< 2) ||| (0xff >>> 6) = 1023 ∧ voltage_acc 0 0xff 0xff ≤ 4092 :=
  ⟨(voltage_acc_ten_bit_no_wrap 0xff 0xff (by decide) (by decide)).1,
    (voltage_acc_ten_bit_no_wrap 0xff 0xff (by decide) (by decide)).2.2.2.2.2.1⟩

/-! ## C9: non-PECI channels -/

/-- C9: for a non-PECI channel (index 0..3) whose high-byte register reads `h` in 1..255, whatever
the other registers hold, `show_temp` prints exactly one line for the channel, with
`rawCombined = (h << 8) / 32 * 125 = 1000 * h` (no fractional term, at most 255000, below 2^32)
and scaled value `h`. -/
theorem show_temp_non_peci_whole_degrees (device : Nat) (s : Sys) (i h : Nat) (hi : i < 4)
    (h1 : 1 ≤ h) (h255 : h ≤ 255) (hreg : s.regs device (REG_TEMP.getD i 0) = some h) :
    ∃ s1 new, show_temp device s = some s1 ∧ s1.out = s.out ++ new ∧
      new.filter (fun r => r.label = NameRegTemp.getD i "") =
        [⟨NameRegTemp.getD i "", (h <<< 8) / 32 * 125, h⟩] ∧
      temp_raw h 0 = (h <<< 8) / 32 * 125 ∧
      (h <<< 8) / 32 * 125 = 1000 * h ∧ 1000 * h ≤ 255000 ∧ 255000 < 2 ^ 32 ∧
      (((h <<< 8) / 32 * 125 : Nat) : ℚ) / 1000 = h := by
  obtain ⟨s1, hs, _, _, _, ho⟩ := show_temp_spec device s
  refine ⟨s1, _, hs, ho, ?_, ?_, temp_shift_scale h, by omega, by decide, ?_⟩
  · rw [temp_filter_label s.regs device 0 i (by omega), temp_line_some s.regs device i h h1 h255 hreg,
      temp_shift_scale]
    rfl
  · rw [temp_raw_zero_frac h (by omega), temp_shift_scale]
  · rw [temp_shift_scale]
    push_cast
    field_simp

/-- C9, at a concrete content: register 0x01 reads 0x28, every other read fails; the only line is
that of channel 0 with raw value 40000 and 40 degrees. -/
theorem show_temp_non_peci_whole_degrees_witness :
    ∃ s1 new, show_temp 0x2c (sys_of (fun _ a => if a = 0x01 then some 0x28 else none)) = some s1 ∧
      s1.out = new ∧
      new.filter (fun r => r.label = "Remote Diode 1 PCH") = [⟨"Remote Diode 1 PCH", 40000, 40⟩] := by
  obtain ⟨s1, new, h, ho, hf, _⟩ :=
    show_temp_non_peci_whole_degrees 0x2c
      (sys_of (fun _ a => if a = 0x01 then some 0x28 else none)) 0 0x28
      (by decide) (by decide) (by decide) rfl
  exact ⟨s1, new, h, by simpa [sys_of] using ho, hf⟩

/-! ## C10: detection stops at the first failing check -/

/-- C10: `nct7802_detect` issues the reads of the prefix of
`[0x00, 0xfd, 0xfe, 0xff, 0x05, 0x08, 0x0f]` that ends at the first failing check (all seven when
none fails); it returns `-ENODEV` when it stops early; verdict and reads are the same in every
state that agrees on the registers read; with bank 0 and vendor id 0x00 it returns `-ENODEV` after
reading exactly 0x00 and 0xfd. -/
theorem detect_short_circuits (device : Nat) (s : Sys) :
    ∃ k, 1 ≤ k ∧ k ≤ 7 ∧
      k = (if (i2c_smbus_read_byte_data device 0x00 s).1 ≠ 0 then 1
         else if (i2c_smbus_read_byte_data device 0xfd s).1 ≠ 0x50 then 2
         else if (i2c_smbus_read_byte_data device 0xfe s).1 ≠ 0xc3 then 3
         else if (i2c_smbus_read_byte_data device 0xff s).1 &&& 0xf0 ≠ 0x20 then 4
         else if (i2c_smbus_read_byte_data device 0x05 s).1 &&& 0x1f ≠ 0 then 5
         else if (i2c_smbus_read_byte_data device 0x08 s).1 &&& 0x3f ≠ 0 then 6
         else 7) ∧
      (nct7802_detect device s).2.log = s.log ++
        ([0x00, 0xfd, 0xfe, 0xff, 0x05, 0x08, 0x0f].take k).map (Txn.read device) ∧
      (k < 7 → (nct7802_detect device s).1 = -ENODEV) ∧
      (∀ t : Sys,
        (∀ a ∈ [0x00, 0xfd, 0xfe, 0xff, 0x05, 0x08, 0x0f].take k,
          t.regs device a = s.regs device a) →
        (nct7802_detect device t).1 = (nct7802_detect device s).1 ∧
        (nct7802_detect device t).2.log = t.log ++
          ([0x00, 0xfd, 0xfe, 0xff, 0x05, 0x08, 0x0f].take k).map (Txn.read device)) ∧
      ((i2c_smbus_read_byte_data device 0x00 s).1 = 0 ∧
          (i2c_smbus_read_byte_data device 0xfd s).1 = 0x00 →
        (nct7802_detect device s).1 = -ENODEV ∧
        (nct7802_detect device s).2.log =
          s.log ++ [Txn.read device 0x00, Txn.read device 0xfd]) := by
  have r0 : (i2c_smbus_read_byte_data device 0x00 s).1 = rdval (s.regs device 0x00) := read_fst _ _ _
  have r1 : (i2c_smbus_read_byte_data device 0xfd s).1 = rdval (s.regs device 0xfd) := read_fst _ _ _
  have r2 : (i2c_smbus_read_byte_data device 0xfe s).1 = rdval (s.regs device 0xfe) := read_fst _ _ _
  have r3 : (i2c_smbus_read_byte_data device 0xff s).1 = rdval (s.regs device 0xff) := read_fst _ _ _
  have r4 : (i2c_smbus_read_byte_data device 0x05 s).1 = rdval (s.regs device 0x05) := read_fst _ _ _
  have r5 : (i2c_smbus_read_byte_data device 0x08 s).1 = rdval (s.regs device 0x08) := read_fst _ _ _
  rw [r0, r1, r2, r3, r4, r5]
  refine ⟨_, ?_, ?_, rfl, detect_log device s, ?_, ?_, ?_⟩
  · split_ifs <;> decide
  · split_ifs <;> decide
  · rw [detect_fst]
    split_ifs <;> simp_all
  · intro t ht
    rw [detect_fst, detect_fst, detect_log]
    by_cases c0 : rdval (s.regs device 0x00) = 0
    swap
    · simp only [c0, ne_eq, not_true, not_false_eq_true, if_true, if_false, List.take,
        List.mem_cons, List.mem_singleton, forall_eq_or_imp, forall_eq, List.not_mem_nil,
        false_imp_iff, forall_const, and_true, implies_true] at ht ⊢
      simp [ht, c0]
    by_cases c1 : rdval (s.regs device 0xfd) = 0x50
    swap
    · simp only [c0, c1, ne_eq, not_true, not_false_eq_true, if_true, if_false, List.take,
        List.mem_cons, List.mem_singleton, forall_eq_or_imp, forall_eq, List.not_mem_nil,
        false_imp_iff, forall_const, and_true, implies_true] at ht ⊢
      simp [ht, c0, c1]
    by_cases c2 : rdval (s.regs device 0xfe) = 0xc3
    swap
    · simp only [c0, c1, c2, ne_eq, not_true, not_false_eq_true, if_true, if_false, List.take,
        List.mem_cons, List.mem_singleton, forall_eq_or_imp, forall_eq, List.not_mem_nil,
        false_imp_iff, forall_const, and_true, implies_true] at ht ⊢
      simp [ht, c0, c1, c2]
    by_cases c3 : rdval (s.regs device 0xff) &&& 0xf0 = 0x20
    swap
    · simp only [c0, c1, c2, c3, ne_eq, not_true, not_false_eq_true, if_true, if_false, List.take,
        List.mem_cons, List.mem_singleton, forall_eq_or_imp, forall_eq, List.not_mem_nil,
        false_imp_iff, forall_const, and_true, implies_true] at ht ⊢
      simp [ht, c0, c1, c2, c3]
    by_cases c4 : rdval (s.regs device 0x05) &&& 0x1f = 0
    swap
    · simp only [c0, c1, c2, c3, c4, ne_eq, not_true, not_false_eq_true, if_true, if_false, List.take,
        List.mem_cons, List.mem_singleton, forall_eq_or_imp, forall_eq, List.not_mem_nil,
        false_imp_iff, forall_const, and_true, implies_true] at ht ⊢
      simp [ht, c0, c1, c2, c3, c4]
    by_cases c5 : rdval (s.regs device 0x08) &&& 0x3f = 0
    swap
    · simp only [c0, c1, c2, c3, c4, c5, ne_eq, not_true, not_false_eq_true, if_true, if_false, List.take,
        List.mem_cons, List.mem_singleton, forall_eq_or_imp, forall_eq, List.not_mem_nil,
        false_imp_iff, forall_const, and_true, implies_true] at ht ⊢
      simp [ht, c0, c1, c2, c3, c4, c5]
    simp only [c0, c1, c2, c3, c4, c5, ne_eq, not_true, not_false_eq_true, if_true, if_false, List.take,
      List.mem_cons, List.mem_singleton, forall_eq_or_imp, forall_eq, List.not_mem_nil,
      false_imp_iff, forall_const, and_true, implies_true] at ht ⊢
    simp [ht, c0, c1, c2, c3, c4, c5]
  · rintro ⟨h0, h1⟩
    rw [detect_fst, detect_log]
    simp [h0, h1]

/-- C10, at a concrete content: bank 0 and vendor id 0x00, the other registers as in the confirmed
content; the verdict is `-ENODEV` and the reads are 0x00 and 0xfd. -/
theorem detect_short_circuits_witness :
    (nct7802_detect 0x2c
      (sys_of (fun _ a => some (if a = 0xfd then 0x00 else regs_confirmed a)))).1 = -ENODEV ∧
    (nct7802_detect 0x2c
      (sys_of (fun _ a => some (if a = 0xfd then 0x00 else regs_confirmed a)))).2.log =
        [Txn.read 0x2c 0x00, Txn.read 0x2c 0xfd] := by
  obtain ⟨_, _, _, _, _, _, _, hpart⟩ := detect_short_circuits 0x2c
    (sys_of (fun _ a => some (if a = 0xfd then 0x00 else regs_confirmed a)))
  exact hpart ⟨rfl, rfl⟩

/-! ## C11: the verdict of detection gates nothing -/

/-- C11: for every register content the cycle of `main` returns, whatever `nct7802_detect`
returns (`EOK` or `-ENODEV`); the writes it issues are the same five configuration writes; the
lines it prints are those `show_voltage` and `show_temp` print when run directly on the starting
state, a function of the register content alone. -/
theorem main_cycle_verdict_gates_nothing (s : Sys) :
    ∃ s1 sv st new, main_cycle s = some s1 ∧
      ((nct7802_detect 0x2c s).1 = EOK ∨ (nct7802_detect 0x2c s).1 = -ENODEV) ∧
      (s1.log.drop s.log.length).filter is_write =
        [Txn.write 0x2c 0x00 0, Txn.write 0x2c 0x21 0x01, Txn.write 0x2c 0x22 0x3f,
          Txn.write 0x2c 0x25 0x3, Txn.write 0x2c 0x22 0x40] ∧
      show_voltage 0x2c s = some sv ∧ show_temp 0x2c sv = some st ∧ s1.out = st.out ∧
      s1.out = s.out ++ new ∧
      (∀ t : Sys, (∀ a, t.regs 0x2c a = s.regs 0x2c a) →
        ∃ t1, main_cycle t = some t1 ∧ t1.out = t.out ++ new ∧
          (t1.log.drop t.log.length).filter is_write =
            (s1.log.drop s.log.length).filter is_write) := by
  have hwr : ∀ u u1 : Sys, u1.log = u.log ++
        [Txn.read 0x2c 0x00, Txn.read 0x2c 0xfe, Txn.read 0x2c 0xff] ++
        ([0x00, 0xfd, 0xfe, 0xff, 0x05, 0x08, 0x0f].take
          (if rdval (u.regs 0x2c 0x00) ≠ 0 then 1
           else if rdval (u.regs 0x2c 0xfd) ≠ 0x50 then 2
           else if rdval (u.regs 0x2c 0xfe) ≠ 0xc3 then 3
           else if rdval (u.regs 0x2c 0xff) &&& 0xf0 ≠ 0x20 then 4
           else if rdval (u.regs 0x2c 0x05) &&& 0x1f ≠ 0 then 5
           else if rdval (u.regs 0x2c 0x08) &&& 0x3f ≠ 0 then 6
           else 7)).map (Txn.read 0x2c) ++
        [Txn.write 0x2c 0x00 0, Txn.write 0x2c 0x21 0x01, Txn.write 0x2c 0x22 0x3f,
          Txn.write 0x2c 0x25 0x3] ++
        [0x09, 0x0f, 0x0a, 0x0f, 0x0c, 0x0f, 0x0d, 0x0f, 0x0e, 0x0f].map (Txn.read 0x2c) ++
        [Txn.write 0x2c 0x22 0x40] ++
        [0x01, 0x02, 0x03, 0x04, 0x06, 0x07].map (Txn.read 0x2c) →
      (u1.log.drop u.log.length).filter is_write =
        [Txn.write 0x2c 0x00 0, Txn.write 0x2c 0x21 0x01, Txn.write 0x2c 0x22 0x3f,
          Txn.write 0x2c 0x25 0x3, Txn.write 0x2c 0x22 0x40] := by
    intro u u1 h
    rw [h]
    simp only [List.append_assoc, List.drop_left]
    split_ifs <;> simp [is_write]
  have hlines : ∀ u : Sys, (∀ a, u.regs 0x2c a = s.regs 0x2c a) →
      (List.range 5).filterMap (volt_line u.regs 0x2c) ++
        (List.range 6).filterMap (temp_line u.regs 0x2c 0) =
      (List.range 5).filterMap (volt_line s.regs 0x2c) ++
        (List.range 6).filterMap (temp_line s.regs 0x2c 0) := by
    intro u hu
    congr 1
    · apply List.filterMap_congr
      intro j _
      unfold volt_line
      simp only [hu]
    · apply List.filterMap_congr
      intro j _
      unfold temp_line
      simp only [hu]
  obtain ⟨s1, hm, _, hl, ho⟩ := main_cycle_spec s
  obtain ⟨sv, hv, hvr, _, _, hvo⟩ := show_voltage_spec 0x2c s
  obtain ⟨st, ht, _, _, _, hto⟩ := show_temp_spec 0x2c sv
  refine ⟨s1, sv, st, (List.range 5).filterMap (volt_line s.regs 0x2c) ++
    (List.range 6).filterMap (temp_line s.regs 0x2c 0), hm, ?_, hwr s s1 hl, hv, ht, ?_, ?_, ?_⟩
  · rw [detect_fst]
    split_ifs
    · exact Or.inl rfl
    · exact Or.inr rfl
  · rw [ho, hto, hvo, hvr]
  · rw [ho, List.append_assoc]
  · intro t htr
    obtain ⟨t1, htm, _, htl, hto1⟩ := main_cycle_spec t
    refine ⟨t1, htm, ?_, ?_⟩
    · rw [hto1, List.append_assoc, hlines t htr]
    · rw [hwr t t1 htl, hwr s s1 hl]

/-- C11, at two concrete contents: on the confirmed content, where `nct7802_detect` returns `EOK`,
and on a bus where every read fails, where it returns `-ENODEV`, the cycle issues the same five
writes. -/
theorem main_cycle_verdict_gates_nothing_witness :
    (nct7802_detect 0x2c (sys_of (fun _ a => some (regs_confirmed a)))).1 = EOK ∧
    (nct7802_detect 0x2c (sys_of (fun _ _ => none))).1 = -ENODEV ∧
    ∃ s1 t1, main_cycle (sys_of (fun _ a => some (regs_confirmed a))) = some s1 ∧
      main_cycle (sys_of (fun _ _ => none)) = some t1 ∧
      s1.log.filter is_write = t1.log.filter is_write := by
  obtain ⟨s1, _, _, _, hs, _, hsw, _⟩ :=
    main_cycle_verdict_gates_nothing (sys_of (fun _ a => some (regs_confirmed a)))
  obtain ⟨t1, _, _, _, ht, _, htw, _⟩ :=
    main_cycle_verdict_gates_nothing (sys_of (fun _ _ => none))
  refine ⟨by rw [detect_fst]; decide, by rw [detect_fst]; decide, s1, t1, hs, ht, ?_⟩
  have e1 : s1.log.filter is_write = (s1.log.drop
      (sys_of (fun _ a => some (regs_confirmed a))).log.length).filter is_write := rfl
  have e2 : t1.log.filter is_write = (t1.log.drop
      (sys_of (fun _ _ => none)).log.length).filter is_write := rfl
  rw [e1, e2, hsw, htw]

/-! ## C12: the order of writes and decoding reads -/

/-- C12, as stated, fails: on a bus where every read fails, the cycle of `main` issues the write
of 0x40 to `REG_MODE` (position 19 of the log) after the read of register 0x09 (position 9), which
is the first read of `show_voltage`. -/
theorem main_cycle_write_after_decoding_read_counterexample :
    ∃ s1, main_cycle (sys_of (fun _ _ => none)) = some s1 ∧
      s1.log =
        [Txn.read 0x2c 0x00, Txn.read 0x2c 0xfe, Txn.read 0x2c 0xff,
         Txn.read 0x2c 0x00, Txn.read 0x2c 0xfd,
         Txn.write 0x2c 0x00 0, Txn.write 0x2c 0x21 0x01, Txn.write 0x2c 0x22 0x3f,
         Txn.write 0x2c 0x25 0x3,
         Txn.read 0x2c 0x09, Txn.read 0x2c 0x0f, Txn.read 0x2c 0x0a, Txn.read 0x2c 0x0f,
         Txn.read 0x2c 0x0c, Txn.read 0x2c 0x0f, Txn.read 0x2c 0x0d, Txn.read 0x2c 0x0f,
         Txn.read 0x2c 0x0e, Txn.read 0x2c 0x0f,
         Txn.write 0x2c 0x22 0x40,
         Txn.read 0x2c 0x01, Txn.read 0x2c 0x02, Txn.read 0x2c 0x03, Txn.read 0x2c 0x04,
         Txn.read 0x2c 0x06, Txn.read 0x2c 0x07] ∧
      ¬ (∀ (i j : Nat) (x : Txn), i < j → s1.log[i]? = some (Txn.read 0x2c 0x09) → s1.log[j]? = some x →
          is_write x = false) := by
  obtain ⟨s1, hm, _, hl, _⟩ := main_cycle_spec (sys_of (fun _ _ => none))
  have hlog : s1.log =
        [Txn.read 0x2c 0x00, Txn.read 0x2c 0xfe, Txn.read 0x2c 0xff,
         Txn.read 0x2c 0x00, Txn.read 0x2c 0xfd,
         Txn.write 0x2c 0x00 0, Txn.write 0x2c 0x21 0x01, Txn.write 0x2c 0x22 0x3f,
         Txn.write 0x2c 0x25 0x3,
         Txn.read 0x2c 0x09, Txn.read 0x2c 0x0f, Txn.read 0x2c 0x0a, Txn.read 0x2c 0x0f,
         Txn.read 0x2c 0x0c, Txn.read 0x2c 0x0f, Txn.read 0x2c 0x0d, Txn.read 0x2c 0x0f,
         Txn.read 0x2c 0x0e, Txn.read 0x2c 0x0f,
         Txn.write 0x2c 0x22 0x40,
         Txn.read 0x2c 0x01, Txn.read 0x2c 0x02, Txn.read 0x2c 0x03, Txn.read 0x2c 0x04,
         Txn.read 0x2c 0x06, Txn.read 0x2c 0x07] := by
    rw [hl]; decide
  refine ⟨s1, hm, hlog, ?_⟩
  intro h
  have := h 9 19 (Txn.write 0x2c 0x22 0x40) (by decide) (by rw [hlog]; rfl) (by rw [hlog]; rfl)
  exact absurd this (by decide)

/-- C12, amended: `nct7802_detect` issues no write; in the cycle of `main` the transactions before
the four configuration writes are reads, the four writes come before the first read of
`show_voltage`, the fifth write (0x40 to `REG_MODE`) comes after the ten reads of `show_voltage`
and before the six reads of `show_temp`, and nothing is written after the first read of
`show_temp`. -/
theorem main_cycle_write_order (device : Nat) (s : Sys) :
    (∀ x ∈ (nct7802_detect device s).2.log.drop s.log.length, is_write x = false) ∧
    ∃ s1 sv st pre, main_cycle s = some s1 ∧
      show_voltage 0x2c s = some sv ∧ show_temp 0x2c s = some st ∧
      s1.log = s.log ++ pre ++
        [Txn.write 0x2c 0x00 0, Txn.write 0x2c 0x21 0x01, Txn.write 0x2c 0x22 0x3f,
          Txn.write 0x2c 0x25 0x3] ++
        sv.log.drop s.log.length ++
        [Txn.write 0x2c 0x22 0x40] ++
        st.log.drop s.log.length ∧
      (∀ x ∈ pre, is_write x = false) ∧
      sv.log.drop s.log.length =
        [0x09, 0x0f, 0x0a, 0x0f, 0x0c, 0x0f, 0x0d, 0x0f, 0x0e, 0x0f].map (Txn.read 0x2c) ∧
      st.log.drop s.log.length = [0x01, 0x02, 0x03, 0x04, 0x06, 0x07].map (Txn.read 0x2c) ∧
      (∀ x ∈ sv.log.drop s.log.length, is_write x = false) ∧
      (∀ x ∈ st.log.drop s.log.length, is_write x = false) := by
  constructor
  · intro x hx
    rw [detect_log, List.drop_left] at hx
    obtain ⟨a, _, rfl⟩ := List.mem_map.mp hx
    rfl
  · obtain ⟨s1, hm, _, hl, _⟩ := main_cycle_spec s
    obtain ⟨sv, hv, _, _, hvl, _⟩ := show_voltage_spec 0x2c s
    obtain ⟨st, ht, _, _, htl, _⟩ := show_temp_spec 0x2c s
    have hvd : sv.log.drop s.log.length =
        [0x09, 0x0f, 0x0a, 0x0f, 0x0c, 0x0f, 0x0d, 0x0f, 0x0e, 0x0f].map (Txn.read 0x2c) := by
      rw [hvl, List.drop_left]
    have htd : st.log.drop s.log.length =
        [0x01, 0x02, 0x03, 0x04, 0x06, 0x07].map (Txn.read 0x2c) := by
      rw [htl, List.drop_left]
    have hrd : ∀ (l : List Nat), ∀ x ∈ l.map (Txn.read 0x2c), is_write x = false := by
      intro l x hx
      obtain ⟨a, _, rfl⟩ := List.mem_map.mp hx
      rfl
    refine ⟨s1, sv, st,
      [Txn.read 0x2c 0x00, Txn.read 0x2c 0xfe, Txn.read 0x2c 0xff] ++
        ([0x00, 0xfd, 0xfe, 0xff, 0x05, 0x08, 0x0f].take
          (if rdval (s.regs 0x2c 0x00) ≠ 0 then 1
           else if rdval (s.regs 0x2c 0xfd) ≠ 0x50 then 2
           else if rdval (s.regs 0x2c 0xfe) ≠ 0xc3 then 3
           else if rdval (s.regs 0x2c 0xff) &&& 0xf0 ≠ 0x20 then 4
           else if rdval (s.regs 0x2c 0x05) &&& 0x1f ≠ 0 then 5
           else if rdval (s.regs 0x2c 0x08) &&& 0x3f ≠ 0 then 6
           else 7)).map (Txn.read 0x2c),
      hm, hv, ht, ?_, ?_, hvd, htd, ?_, ?_⟩
    · rw [hl, hvd, htd]
      simp only [List.append_assoc]
    · intro x hx
      rcases List.mem_append.mp hx with h | h
      · simp only [List.mem_cons, List.mem_singleton, List.not_mem_nil, or_false] at h
        rcases h with rfl | rfl | rfl <;> rfl
      · exact hrd _ x h
    · rw [hvd]; exact hrd _
    · rw [htd]; exact hrd _

/-- C12 amended, at a concrete content: on a bus where every read fails the writes of the cycle
are the four configuration writes and the write of 0x40 to `REG_MODE`, and the detection of the
confirmed content issues seven transactions, none a write. -/
theorem main_cycle_write_order_witness :
    (∀ x ∈ (nct7802_detect 0x2c (sys_of (fun _ a => some (regs_confirmed a)))).2.log,
      is_write x = false) ∧
    ∃ s1, main_cycle (sys_of (fun _ _ => none)) = some s1 ∧
      s1.log.filter is_write =
        [Txn.write 0x2c 0x00 0, Txn.write 0x2c 0x21 0x01, Txn.write 0x2c 0x22 0x3f,
          Txn.write 0x2c 0x25 0x3, Txn.write 0x2c 0x22 0x40] := by
  obtain ⟨hd, s1, sv, st, pre, hm, _, _, hl, hpre, hvd, htd, _, _⟩ :=
    main_cycle_write_order 0x2c (sys_of (fun _ _ => none))
  refine ⟨(main_cycle_write_order 0x2c (sys_of (fun _ a => some (regs_confirmed a)))).1,
    s1, hm, ?_⟩
  rw [hl, hvd, htd]
  have hp : pre.filter is_write = [] := by
    rw [List.filter_eq_nil_iff]
    intro x hx
    rw [hpre x hx]
    decide
  simp only [List.filter_append, hp]
  rfl

/-! ## C13: `show_temp` reads the high bytes only -/

/-- C13: on a register content of bytes, `show_temp` reads the six high-byte registers 0x01,
0x02, 0x03, 0x04, 0x06, 0x07 once each in this order and reads neither low-byte register 0x05 nor
0x08; every line it prints, PECI channels included, belongs to a channel whose high byte `h` is in
1..255 and has raw value `1000 * h` and scaled value `h`, a whole number between 1 and 255. -/
theorem show_temp_reads_high_bytes_only (device : Nat) (s : Sys)
    (hbyte : ∀ a d, s.regs device a = some d → d < 256) :
    ∃ s1 new, show_temp device s = some s1 ∧
      s1.log = s.log ++ [0x01, 0x02, 0x03, 0x04, 0x06, 0x07].map (Txn.read device) ∧
      Txn.read device REG_TEMP_LSB ∉ s1.log.drop s.log.length ∧
      Txn.read device REG_TEMP_PECI_LSB ∉ s1.log.drop s.log.length ∧
      s1.out = s.out ++ new ∧
      (∀ r ∈ new, ∃ i h, i < 6 ∧ 1 ≤ h ∧ h ≤ 255 ∧
        s.regs device (REG_TEMP.getD i 0) = some h ∧
        r.label = NameRegTemp.getD i "" ∧ r.raw = 1000 * h ∧ r.raw = temp_raw h 0 ∧
        r.scaled = h ∧ 1 ≤ r.scaled ∧ r.scaled ≤ 255) := by
  obtain ⟨s1, hs, _, _, hl, ho⟩ := show_temp_spec device s
  refine ⟨s1, _, hs, hl, ?_, ?_, ho, ?_⟩
  · rw [hl, List.drop_left]
    simp [REG_TEMP_LSB]
  · rw [hl, List.drop_left]
    simp [REG_TEMP_PECI_LSB]
  · intro r hr
    obtain ⟨i, hi, hline⟩ := List.mem_filterMap.mp hr
    have hi6 : i < 6 := List.mem_range.mp hi
    rcases Option.eq_none_or_eq_some (s.regs device (REG_TEMP.getD i 0)) with hreg | ⟨h, hreg⟩
    · unfold temp_line at hline
      rw [hreg, if_pos (show rdval none = 0 from rfl)] at hline
      cases hline
    · have hlt := hbyte _ h hreg
      have hv : rdval (s.regs device (REG_TEMP.getD i 0)) = h := by
        rw [hreg]; exact rdval_byte h hlt
      by_cases h0 : h = 0
      · unfold temp_line at hline
        rw [hv, if_pos h0] at hline
        cases hline
      · have h1 : 1 ≤ h := by omega
        have h255 : h ≤ 255 := by omega
        rw [temp_line_some s.regs device i h h1 h255 hreg] at hline
        cases hline
        refine ⟨i, h, hi6, h1, h255, hreg, rfl, rfl, ?_, rfl, ?_, ?_⟩
        · exact (temp_raw_zero_frac h (by omega)).symm
        · show (1 : ℚ) ≤ (h : ℚ)
          exact_mod_cast h1
        · show (h : ℚ) ≤ 255
          exact_mod_cast h255

/-- C13, at a concrete content: PECI 0 reads 0x64 and the low-byte registers hold 0x20; the reads
are the six high bytes and the only line has raw value 100000 and 100 degrees. -/
theorem show_temp_reads_high_bytes_only_witness :
    ∃ s1, show_temp 0x2c (sys_of regs_peci_fraction) = some s1 ∧
      s1.log = [0x01, 0x02, 0x03, 0x04, 0x06, 0x07].map (Txn.read 0x2c) ∧
      ∀ r ∈ s1.out, r.raw = 100000 ∧ r.scaled = 100 := by
  obtain ⟨s1, new, hs, hl, _, _, ho, hall⟩ :=
    show_temp_reads_high_bytes_only 0x2c (sys_of regs_peci_fraction) (by
      intro a d h
      simp only [sys_of, regs_peci_fraction] at h
      split_ifs at h <;> cases h <;> decide)
  refine ⟨s1, hs, by simpa [sys_of] using hl, ?_⟩
  intro r hr
  have hr' : r ∈ new := by simpa [sys_of, ho] using hr
  obtain ⟨i, h, hi, _, _, hreg, _, hraw, _, hsc, _, _⟩ := hall r hr'
  have : h = 0x64 := by
    interval_cases i <;> simp [sys_of, regs_peci_fraction, REG_TEMP] at hreg
    exact hreg.symm
  subst this
  exact ⟨hraw, by rw [hsc]; norm_num⟩

/-! ## C14: table lookups stay in bounds -/

theorem show_temp_body_in_range (device : Nat) (reg_temp_low : Int) (i t2 : Nat) (t : Sys)
    (hi : i < 6) : (show_temp_body device reg_temp_low i t2 t).isSome = true := by
  interval_cases i <;>
    simp only [show_temp_body, show_temp_print, REG_TEMP, NameRegTemp, read_eq] <;>
    simp <;> split_ifs <;> simp

theorem show_voltage_body_in_range (device index : Nat) (t : Sys) (hi : index < 5) :
    (show_voltage_body device index t).isSome = true := by
  obtain ⟨s1, h, _⟩ := show_voltage_body_spec device index t hi
  rw [h]; rfl

theorem show_temp_body_out_of_range (device : Nat) (reg_temp_low : Int) (i t2 : Nat) (t : Sys)
    (hi : 6 ≤ i) : show_temp_body device reg_temp_low i t2 t = none := by
  have h : REG_TEMP[i]? = none := List.getElem?_eq_none (by simpa [REG_TEMP] using hi)
  simp only [show_temp_body, h]

theorem show_voltage_body_out_of_range (device index : Nat) (t : Sys) (hi : 5 ≤ index) :
    show_voltage_body device index t = none := by
  have h : REG_VOLTAGE[index]? = none := List.getElem?_eq_none (by simpa [REG_VOLTAGE] using hi)
  simp only [show_voltage_body, h]

theorem temp_names_ne_last : ∀ i < 6, NameRegTemp.getD i "" ≠ "PECI 2" := by decide

/-- C14: the tables have 6, 7, 5, 5 and 5 entries, the register entries being bytes; `show_temp` visits exactly the indices 0..5 and
`show_voltage` exactly 0..4, every lookup at a visited index succeeds, so each loop body returns at
every visited index (and would not at the first index past the table); both loops exit with their
counters at 6 and 5, after 6 and 10 reads; the seventh label "PECI 2" is never printed. -/
theorem decoder_lookups_in_bounds (device : Nat) (s : Sys) :
    (REG_TEMP.length = 6 ∧ NameRegTemp.length = 7 ∧ REG_VOLTAGE.length = 5 ∧
      NameRegVolt.length = 5 ∧ VOLTAGE_MULT.length = 5 ∧
      (∀ a ∈ REG_TEMP, a < 256) ∧ (∀ a ∈ REG_VOLTAGE, a < 256)) ∧
    (List.range REG_TEMP.length = [0, 1, 2, 3, 4, 5] ∧
      List.range REG_VOLTAGE.length = [0, 1, 2, 3, 4]) ∧
    (∀ i < REG_TEMP.length, REG_TEMP[i]?.isSome = true ∧ NameRegTemp[i]?.isSome = true) ∧
    (∀ i < REG_VOLTAGE.length, REG_VOLTAGE[i]?.isSome = true ∧ NameRegVolt[i]?.isSome = true ∧
      VOLTAGE_MULT[i]?.isSome = true) ∧
    (∀ (reg_temp_low : Int) (i t2 : Nat) (t : Sys), i < REG_TEMP.length →
      (show_temp_body device reg_temp_low i t2 t).isSome = true) ∧
    (∀ (index : Nat) (t : Sys), index < REG_VOLTAGE.length →
      (show_voltage_body device index t).isSome = true) ∧
    (∀ (reg_temp_low : Int) (i t2 : Nat) (t : Sys), REG_TEMP.length ≤ i →
      show_temp_body device reg_temp_low i t2 t = none) ∧
    (∀ (index : Nat) (t : Sys), REG_VOLTAGE.length ≤ index →
      show_voltage_body device index t = none) ∧
    (∃ t2 s1, show_temp_for device 0 0 0 s = some (6, t2, s1) ∧ show_temp device s = some s1 ∧
      s1.log.length = s.log.length + 6 ∧
      ∀ r ∈ s1.out.drop s.out.length, r.label ≠ "PECI 2") ∧
    (∃ s1, show_voltage_for device 0 s = some (5, s1) ∧ show_voltage device s = some s1 ∧
      s1.log.length = s.log.length + 10) ∧
    NameRegTemp[6]? = some "PECI 2" := by
  refine ⟨by decide, by decide, by decide, by decide, ?_, ?_, ?_, ?_, ?_, ?_, rfl⟩
  · intro r i t2 t hi
    exact show_temp_body_in_range device r i t2 t hi
  · intro i t hi
    exact show_voltage_body_in_range device i t hi
  · intro r i t2 t hi
    exact show_temp_body_out_of_range device r i t2 t hi
  · intro i t hi
    exact show_voltage_body_out_of_range device i t hi
  · obtain ⟨s1, hs, _, _, hl, ho⟩ := show_temp_spec device s
    have hfor := show_temp_eq_for device s
    rw [hs] at hfor
    have hloop := show_temp_for_eq_loop device 0 REG_TEMP.length 0 0 s (Nat.zero_add _)
    cases hf : show_temp_for device 0 0 0 s with
    | none => rw [hf] at hfor; cases hfor
    | some p =>
      obtain ⟨c, t2, s2⟩ := p
      rw [hf] at hfor hloop
      have hs2 : s1 = s2 := by
        simpa using hfor
      subst hs2
      have hc : c = 6 := by
        cases hlp : show_temp_loop device 0 (List.range' 0 REG_TEMP.length) 0 s with
        | none => rw [hlp] at hloop; cases hloop
        | some q =>
          rw [hlp] at hloop
          simp only [Option.map_some', Option.some.injEq, Prod.mk.injEq] at hloop
          exact hloop.1.trans rfl
      subst hc
      refine ⟨t2, s1, rfl, hs, ?_, ?_⟩
      · rw [hl]; simp
      · intro r hr
        rw [ho, List.drop_left] at hr
        obtain ⟨i, hi, hline⟩ := List.mem_filterMap.mp hr
        have hi6 : i < 6 := List.mem_range.mp hi
        rw [temp_line_label s.regs device 0 i r hline]
        exact temp_names_ne_last i hi6
  · obtain ⟨s1, hs, _, _, hl, _⟩ := show_voltage_spec device s
    have hfor := show_voltage_eq_for device s
    rw [hs] at hfor
    have hloop := show_voltage_for_eq_loop device REG_VOLTAGE.length 0 s (Nat.zero_add _)
    cases hf : show_voltage_for device 0 s with
    | none => rw [hf] at hfor; cases hfor
    | some p =>
      obtain ⟨c, s2⟩ := p
      rw [hf] at hfor hloop
      have hs2 : s1 = s2 := by
        simpa using hfor
      subst hs2
      have hc : c = 5 := by
        cases hlp : show_voltage_loop device (List.range' 0 REG_VOLTAGE.length) s with
        | none => rw [hlp] at hloop; cases hloop
        | some q =>
          rw [hlp] at hloop
          simp only [Option.map_some', Option.some.injEq, Prod.mk.injEq] at hloop
          exact hloop.1.trans rfl
      subst hc
      refine ⟨s1, rfl, hs, ?_⟩
      rw [hl]; simp

/-- C14, at a concrete content: on a bus where every read fails both loops exit with their
counters at 6 and 5. -/
theorem decoder_lookups_in_bounds_witness :
    (∃ t2 s1, show_temp_for 0x2c 0 0 0 (sys_of (fun _ _ => none)) = some (6, t2, s1)) ∧
    (∃ s1, show_voltage_for 0x2c 0 (sys_of (fun _ _ => none)) = some (5, s1)) ∧
    (show_temp_body 0x2c 0 5 0 (sys_of (fun _ _ => none))).isSome = true ∧
    show_temp_body 0x2c 0 6 0 (sys_of (fun _ _ => none)) = none := by
  obtain ⟨_, _, _, _, hin, _, hout, _, ⟨t2, s1, hf, _⟩, ⟨v1, hv, _⟩, _⟩ :=
    decoder_lookups_in_bounds 0x2c (sys_of (fun _ _ => none))
  exact ⟨⟨t2, s1, hf⟩, ⟨v1, hv⟩, hin 0 5 0 _ (by decide), hout 0 6 0 _ (by decide)⟩

end Nct7802
